import Mathlib

/-!
Verification development for the `vespa-upload-bridge` administrative scripts.

The Python sources embedded here are:
  * `src/knack_reconcile_objects.py` — field extractors, `normalize_identifier`,
    `compare_objects`, and the fix/confirmation control flow of `main`;
  * `src/knack_dedupe.py` — `normalize_email`, `extract_email_value`,
    `choose_record_to_keep`, `plan_deletions`, and the delete gating of `main`;
  * `src/knack_consolidate_students.py` — `check_student_role`,
    `consolidate_students` chain classification, and the create-missing-Object_29
    fix loop of `main`.

Knack records are opaque JSON-ish maps; they are modelled by `KRecord` with a
`FVal` field-value type covering the shapes the scripts inspect (absent value,
string, flat string-valued mapping, list).  Python string operations
(`.strip()`, `.lower()`, substring tests, the three regular expressions used
by the scripts) are modelled character-exactly on `List Char`.
-/

set_option maxRecDepth 4000

/-! ## Python string primitives -/

/-- Model of Python `str.lower` (ASCII case folding, as used on the data here). -/
def pyLowerL (l : List Char) : List Char := l.map Char.toLower

/-- Model of Python `str.strip`: drop whitespace from both ends. -/
def pyStripL (l : List Char) : List Char :=
  ((l.dropWhile Char.isWhitespace).reverse.dropWhile Char.isWhitespace).reverse

def pyLower (s : String) : String := String.mk (pyLowerL s.data)

def pyStrip (s : String) : String := String.mk (pyStripL s.data)

/-- Does `pat` occur as a prefix of `l`? -/
def hasPfx : List Char → List Char → Bool
  | [], _ => true
  | _ :: _, [] => false
  | p :: ps, c :: cs => p == c && hasPfx ps cs

/-- Model of Python `pat in s` (substring containment). -/
def hasSub : List Char → List Char → Bool
  | [], pat => pat.isEmpty
  | c :: t, pat => hasPfx pat (c :: t) || hasSub t pat

/-- Greedy capture for the regex fragment `([^"]+)"`: a nonempty run of
non-quote characters that must be followed by a double quote. -/
def quoteCapture (l : List Char) : Option (List Char) :=
  let cap := l.takeWhile (fun c => ¬ (c = '"'))
  if cap.isEmpty then Option.none
  else if (l.drop cap.length).head? = some '"' then some cap else Option.none

/-- One anchored attempt of the regex `mailto:([^"]+)"`. -/
def mailtoAt (l : List Char) : Option (List Char) :=
  if hasPfx "mailto:".data l then quoteCapture (l.drop 7) else Option.none

/-- Model of `re.search(r'mailto:([^"]+)"', s)`: leftmost anchored success. -/
def searchMailto : List Char → Option (List Char)
  | [] => Option.none
  | c :: t =>
    match mailtoAt (c :: t) with
    | some cap => some cap
    | Option.none => searchMailto t

/-- One anchored attempt of the regex `>([^<]+@[^<]+)<`: after a `>`, the run of
non-`<` characters must be closed by `<` and contain an interior `@`. -/
def angledAt (l : List Char) : Option (List Char) :=
  match l with
  | '>' :: t =>
    let run := t.takeWhile (fun c => ¬ (c = '<'))
    if (t.drop run.length).head? = some '<' && (run.drop 1).dropLast.contains '@' then
      some run
    else Option.none
  | _ => Option.none

/-- Model of `re.search(r'>([^<]+@[^<]+)<', s)`. -/
def searchAngled : List Char → Option (List Char)
  | [] => Option.none
  | c :: t =>
    match angledAt (c :: t) with
    | some cap => some cap
    | Option.none => searchAngled t

def isHexLower (c : Char) : Bool :=
  ('a' ≤ c && c ≤ 'f') || ('0' ≤ c && c ≤ '9')

/-- One anchored attempt of the regex `<span class="([a-f0-9]{24})"`. -/
def spanIdAt (l : List Char) : Option (List Char) :=
  if hasPfx "<span class=\"".data l then
    let rest := l.drop 13
    let h := rest.take 24
    if h.length = 24 && h.all isHexLower && (rest.drop 24).head? = some '"' then
      some h
    else Option.none
  else Option.none

/-- Model of `re.search(r'<span class="([a-f0-9]{24})"', s)`. -/
def searchSpanId : List Char → Option (List Char)
  | [] => Option.none
  | c :: t =>
    match spanIdAt (c :: t) with
    | some cap => some cap
    | Option.none => searchSpanId t

/-- Scan for a closing `>` of an HTML tag; `.` in Python regexes does not match
a newline, so a newline before any `>` means the tag never closes. -/
def tagClose : List Char → Option (List Char)
  | [] => Option.none
  | c :: r => if c = '>' then some r else if c = '\n' then Option.none else tagClose r

/-- Fuelled worker for `stripTags`; the fuel strictly exceeds the number of
characters still to be scanned, so it never runs out. -/
def stripTagsF : Nat → List Char → List Char
  | 0, l => l
  | _ + 1, [] => []
  | fuel + 1, c :: t =>
    if c = '<' then
      match tagClose t with
      | some r => stripTagsF fuel r
      | Option.none => c :: stripTagsF fuel t
    else c :: stripTagsF fuel t

/-- Model of `re.sub('<.*?>', '', s)`: remove every non-greedy `<...>` span;
a `<` with no closing `>` (before a newline or the end) is kept verbatim. -/
def stripTags (l : List Char) : List Char := stripTagsF (l.length + 1) l

/-! ## Field values and records -/

/-- Shapes of raw Knack field values inspected by the scripts. -/
inductive FVal where
  | absent : FVal
  | str : String → FVal
  | dict : List (String × String) → FVal
  | list : List FVal → FVal

/-- A Knack record: stable id, creation timestamp, field map. -/
structure KRecord where
  id : String
  createdAt : String := ""
  fields : List (String × FVal) := []

/-- Model of `record.get(key)` (absent key gives Python `None`). -/
def kget (r : KRecord) (k : String) : FVal :=
  match r.fields.find? (fun p => p.1 == k) with
  | some p => p.2
  | Option.none => FVal.absent

/-- Model of `d.get(k)` on a string-valued mapping. -/
def dGet (m : List (String × String)) (k : String) : Option String :=
  (m.find? (fun p => p.1 == k)).map (fun p => p.2)

/-- Model of Python `a or b or ""` on two `d.get` results (`None` and the
empty string are both falsy). -/
def orEmpty (a b : Option String) : String :=
  match a with
  | some s => if s = "" then (b.getD "") else s
  | Option.none => b.getD ""

/-- Python truthiness of a raw field value. -/
def pyTruthy : FVal → Bool
  | FVal.absent => false
  | FVal.str s => !(s == "")
  | FVal.dict m => !m.isEmpty
  | FVal.list l => !l.isEmpty

/-! ## Field extractors (`knack_reconcile_objects.py` / `knack_consolidate_students.py`) -/

/-- Literal `'<a href="mailto:'` used for the substring test. -/
def mailtoMark : List Char := "<a href=\"mailto:".data

/-- Literal `'<span class="'` used for the substring test. -/
def spanMark : List Char := "<span class=\"".data

/-- `extract_email_value` from `knack_reconcile_objects.py` (identical in
`knack_consolidate_students.py`): strings may carry a mailto anchor; mappings
prefer `email` then `value`; a list recurses on its first element; the result
is stripped and lower-cased; anything else gives the empty string. -/
def extract_email_value (r : KRecord) (key : String) : String :=
  match kget r key with
  | FVal.str s =>
    if hasSub s.data mailtoMark then
      match searchMailto s.data with
      | some cap => pyLower (pyStrip (String.mk cap))
      | Option.none =>
        match searchAngled s.data with
        | some cap => pyLower (pyStrip (String.mk cap))
        | Option.none => pyLower (pyStrip s)
    else pyLower (pyStrip s)
  | FVal.dict m => pyLower (pyStrip (orEmpty (dGet m "email") (dGet m "value")))
  | FVal.list (FVal.dict m :: _) =>
    pyLower (pyStrip (orEmpty (dGet m "email") (dGet m "value")))
  | FVal.list (FVal.str s :: _) =>
    if hasSub s.data mailtoMark then
      match searchMailto s.data with
      | some cap => pyLower (pyStrip (String.mk cap))
      | Option.none => pyLower (pyStrip s)
    else pyLower (pyStrip s)
  | _ => ""

/-- `extract_email_value` from `knack_dedupe.py`: same shape dispatch but the
extracted value is returned raw (no strip/lower; `normalize_email` does that),
and the list-of-string case has no `>addr<` fallback. -/
def extract_email_value_d (r : KRecord) (key : String) : String :=
  match kget r key with
  | FVal.str s =>
    if hasSub s.data mailtoMark then
      match searchMailto s.data with
      | some cap => String.mk cap
      | Option.none =>
        match searchAngled s.data with
        | some cap => String.mk cap
        | Option.none => s
    else s
  | FVal.dict m => orEmpty (dGet m "email") (dGet m "value")
  | FVal.list (FVal.dict m :: _) => orEmpty (dGet m "email") (dGet m "value")
  | FVal.list (FVal.str s :: _) =>
    if hasSub s.data mailtoMark then
      match searchMailto s.data with
      | some cap => String.mk cap
      | Option.none => s
    else s
  | _ => ""

/-- Does the mapping carry key `k` (Python `k in d`)? -/
def hasKey (m : List (String × String)) (k : String) : Bool :=
  m.any (fun p => p.1 == k)

/-- `extract_name_value`: strings are stripped; a `{first, last}` mapping is
joined with one space; otherwise a mapping's `value` key; lists give `""`. -/
def extract_name_value (r : KRecord) (key : String) : String :=
  match kget r key with
  | FVal.str s => pyStrip s
  | FVal.dict m =>
    if hasKey m "first" && hasKey m "last" then
      pyStrip (pyStrip ((dGet m "first").getD "") ++ " " ++ pyStrip ((dGet m "last").getD ""))
    else pyStrip ((dGet m "value").getD "")
  | _ => ""

/-- `extract_connection_id`: strings may embed the id in a
`<span class="...24 hex...">` fragment; mappings use `id`; lists recurse on
the first element. -/
def extract_connection_id (r : KRecord) (key : String) : String :=
  match kget r key with
  | FVal.str s =>
    if hasSub s.data spanMark then
      match searchSpanId s.data with
      | some h => String.mk h
      | Option.none => s
    else s
  | FVal.dict m => (dGet m "id").getD ""
  | FVal.list (FVal.str s :: _) =>
    if hasSub s.data spanMark then
      match searchSpanId s.data with
      | some h => String.mk h
      | Option.none => s
    else s
  | FVal.list (FVal.dict m :: _) => (dGet m "id").getD ""
  | _ => ""

/-- `check_student_role` from `knack_consolidate_students.py`: true only when
the (truthy) role value is exactly the single role `Student`, compared
case-insensitively after stripping; a top-level string is first cleaned of
HTML tags; lists match only when they have exactly one element. -/
def check_student_role (r : KRecord) (roleField : String) : Bool :=
  let v := kget r roleField
  if !pyTruthy v then false
  else
    match v with
    | FVal.str s => pyLower (pyStrip (String.mk (stripTags s.data))) == "student"
    | FVal.list [FVal.str s] => pyLower (pyStrip s) == "student"
    | FVal.list [FVal.dict m] =>
      pyLower (pyStrip (orEmpty (dGet m "value") (dGet m "identifier"))) == "student"
    | FVal.list _ => false
    | FVal.dict m =>
      pyLower (pyStrip (orEmpty (dGet m "value") (dGet m "identifier"))) == "student"
    | FVal.absent => false

/-- `normalize_identifier` from `knack_reconcile_objects.py`: prefer the email,
fall back to the name, else the empty identifier. -/
def normalize_identifier (email name : String) : String :=
  if !(email == "") then "email:" ++ pyStrip (pyLower email)
  else if !(name == "") then "name:" ++ pyStrip (pyLower name)
  else ""

/-! ## `knack_dedupe.py`: email normalization and deletion planning -/

/-- The unconditional `+tag` removal of `normalize_email`:
`local.split("+", 1)[0]` whenever a `+` is present. -/
def plusFold (lpart : List Char) : List Char :=
  if lpart.contains '+' then lpart.takeWhile (fun c => ¬ (c = '+')) else lpart

/-- The recombination step of `normalize_email` on the stripped local and
domain halves: drop any `+tag`, then under the Gmail flag fold dots out of
`gmail.com`/`googlemail.com` locals and canonicalize the domain. -/
def normEmailSplit (lpart dpart : List Char) (gm : Bool) : String :=
  if gm && (dpart = "gmail.com".data || dpart = "googlemail.com".data) then
    String.mk (((plusFold lpart).filter (fun c => ¬ (c = '.'))) ++ '@' :: "gmail.com".data)
  else
    String.mk ((plusFold lpart) ++ '@' :: dpart)

/-- `normalize_email` after trim/lower: pass strings without `@` through,
otherwise split at the first `@` and strip both halves. -/
def normEmailCore (e : List Char) (gm : Bool) : String :=
  if e.contains '@' = false then String.mk e
  else
    normEmailSplit (pyStripL (e.takeWhile (fun c => ¬ (c = '@'))))
      (pyStripL (e.drop ((e.takeWhile (fun c => ¬ (c = '@'))).length + 1))) gm

/-- `normalize_email`: strip and lower-case; when an `@` is present, split at
the first `@`, strip both halves, drop any `+tag` suffix of the local part
unconditionally, and (only under `gmail_normalize`) remove dots from Gmail
locals and canonicalize `googlemail.com` to `gmail.com`.  (The split into
`normEmailCore`/`normEmailSplit`/`plusFold` is notational; the branches are
those of the Python function.) -/
def normalize_email (email : String) (gmailNormalize : Bool) : String :=
  if email = "" then ""
  else normEmailCore (pyLowerL (pyStripL email.data)) gmailNormalize

/-- Decimal digit test with value. -/
def digitVal (c : Char) : Option Nat :=
  if '0' ≤ c && c ≤ '9' then some (c.toNat - '0'.toNat) else Option.none

/-- Modelled from the spec and `parse_dt`: `dateutil.parser.parse` wrapped so a
parsing failure gives `none`.  The external parser is modelled on the ISO
`YYYY-MM-DD` strings this data uses, mapped to the comparable key
`y * 10000 + m * 100 + d`; any other string is unparseable. -/
def parse_dt (s : String) : Option Nat :=
  match s.data with
  | [y1, y2, y3, y4, '-', m1, m2, '-', d1, d2] =>
    match digitVal y1, digitVal y2, digitVal y3, digitVal y4,
          digitVal m1, digitVal m2, digitVal d1, digitVal d2 with
    | some a, some b, some c, some d, some e, some f, some g, some h =>
      if 1 ≤ ((a * 10 + b) * 10 + c) * 10 + d && 1 ≤ e * 10 + f && e * 10 + f ≤ 12
          && 1 ≤ g * 10 + h && g * 10 + h ≤ 31 then
        some ((((a * 10 + b) * 10 + c) * 10 + d) * 10000 + (e * 10 + f) * 100 + (g * 10 + h))
      else Option.none
    | _, _, _, _, _, _, _, _ => Option.none
  | _ => Option.none

/-- `datetime.min` (year 1, month 1, day 1) under the `parse_dt` key encoding. -/
def dtMin : Nat := 10101

/-- The sort key of `choose_record_to_keep`:
`parse_dt(rec.get("created_at") or "") or datetime.min`. -/
def sortKey (r : KRecord) : Nat :=
  (parse_dt r.createdAt).getD dtMin

/-- `choose_record_to_keep`: Python `min`/`max` with the `sortKey`, which keep
the first extremal element; empty input (never reached by callers) is `none`. -/
def choose_record_to_keep (records : List KRecord) (keep : String) : Option KRecord :=
  match records with
  | [] => Option.none
  | r :: rs =>
    if keep = "newest" then
      some (rs.foldl (fun best x => if sortKey best < sortKey x then x else best) r)
    else
      some (rs.foldl (fun best x => if sortKey x < sortKey best then x else best) r)

/-- Append `r` to the group of key `k`, creating the group at the end when the
key is new — the behaviour of `defaultdict(list)` under insertion order. -/
def addG (gs : List (String × List KRecord)) (k : String) (r : KRecord) :
    List (String × List KRecord) :=
  match gs with
  | [] => [(k, [r])]
  | (k', g) :: t => if k' = k then (k', g ++ [r]) :: t else (k', g) :: addG t k r

/-- First-match association lookup (Python dict access). -/
def lookupL {β : Type} (gs : List (String × β)) (k : String) : Option β :=
  (gs.find? (fun p => p.1 == k)).map (fun p => p.2)

/-- The duplicate-scan grouping of `plan_deletions`: group records by
normalized email, skipping records whose normalized email is empty. -/
def buildGroups (records : List KRecord) (emailKey : String) (gm : Bool) :
    List (String × List KRecord) :=
  records.foldl
    (fun gs r =>
      let n := normalize_email (extract_email_value_d r emailKey) gm
      if n = "" then gs else addG gs n r)
    []

/-- A planned deletion row of `plan_deletions`. -/
structure DelEntry where
  email_norm : String
  delete_id : String
  keep_id : String
  delete_created_at : String
  keep_created_at : String
  delete_raw_email : String
  keep_raw_email : String

/-- The deletion rows contributed by one duplicate group. -/
def groupDeletions (emailKey : String) (keep : String) (e : String)
    (recs : List KRecord) : List DelEntry :=
  match choose_record_to_keep recs keep with
  | some keeper =>
    (recs.filter (fun r => ¬ (r.id = keeper.id))).map (fun r =>
      { email_norm := e
        delete_id := r.id
        keep_id := keeper.id
        delete_created_at := r.createdAt
        keep_created_at := keeper.createdAt
        delete_raw_email := extract_email_value_d r emailKey
        keep_raw_email := extract_email_value_d keeper emailKey })
  | Option.none => []

/-- `plan_deletions`: duplicate groups (size ≥ 2), their keepers, and the
deletion plan for every non-keeper of every duplicate group. -/
def plan_deletions (records : List KRecord) (emailKey : String)
    (keep : String) (gm : Bool) :
    List (String × List KRecord) × List KRecord × List DelEntry :=
  let duplicates := (buildGroups records emailKey gm).filter (fun p => p.2.length > 1)
  let keepers := duplicates.filterMap (fun p => choose_record_to_keep p.2 keep)
  let deletions := duplicates.foldl
    (fun acc p => acc ++ groupDeletions emailKey keep p.1 p.2) []
  (duplicates, keepers, deletions)

/-! ## `knack_reconcile_objects.py`: `compare_objects`

The Object_10/Object_29 field keys are written inline exactly as configured
(`field_197`/`field_187` and `field_2732`/`field_1823`/`field_792`).  The
`by_id` / `by_connection` dictionaries are filled unconditionally in the same
loops that build the identifier indices and are independent of them, so they
are modelled as separate folds over the same record lists.  The summary
counters and the CSV/report plumbing of the script are not modelled. -/

/-- Identifier-index state for Object_10: insertion-ordered identifier
entries (first record wins), plus the `__duplicates_10__` dictionary slot. -/
structure Idx10 where
  entries : List (String × KRecord) := []
  dups : List KRecord := []
  hasDupKey : Bool := false

/-- Membership test on the Object_10 index dictionary, whose keys are the
identifiers together with `__duplicates_10__` once that slot exists. -/
def keyIn10 (st : Idx10) (k : String) : Bool :=
  st.entries.any (fun p => p.1 == k) || (st.hasDupKey && (k == "__duplicates_10__"))

/-- One Object_10 record through the indexing loop of `compare_objects`.
The duplicate branch reproduces the script exactly: it tests for the key
`duplicates_10` but stores under `__duplicates_10__`, so the test never
succeeds and the slot is reset to `[]` before every append. -/
def idx10Step (st : Idx10) (rec : KRecord) : Idx10 :=
  let email := extract_email_value rec "field_197"
  let name := extract_name_value rec "field_187"
  let ident := normalize_identifier email name
  if ident == "" then st
  else if keyIn10 st ident then
    let st' := if !keyIn10 st "duplicates_10" then
        { st with dups := [], hasDupKey := true }
      else st
    { st' with dups := st'.dups ++ [rec] }
  else { st with entries := st.entries ++ [(ident, rec)] }

/-- Identifier-index state for Object_29. -/
structure Idx29 where
  entries : List (String × KRecord) := []
  dups : List KRecord := []
  hasDupKey : Bool := false

def keyIn29 (st : Idx29) (k : String) : Bool :=
  st.entries.any (fun p => p.1 == k) || (st.hasDupKey && (k == "__duplicates_29__"))

/-- One Object_29 record through the indexing loop; here the membership test
uses the same `__duplicates_29__` key that the slot is stored under. -/
def idx29Step (st : Idx29) (rec : KRecord) : Idx29 :=
  let email := extract_email_value rec "field_2732"
  let name := extract_name_value rec "field_1823"
  let ident := normalize_identifier email name
  if ident == "" then st
  else if keyIn29 st ident then
    let st' := if !keyIn29 st "__duplicates_29__" then
        { st with dups := [], hasDupKey := true }
      else st
    { st' with dups := st'.dups ++ [rec] }
  else { st with entries := st.entries ++ [(ident, rec)] }

/-- `obj_by_id[rec.get("id")] = rec` over a record list (later wins). -/
def buildById (records : List KRecord) : String → Option KRecord :=
  records.foldl (fun m r => fun k => if k = r.id then some r else m k)
    (fun _ => Option.none)

/-- `obj29_by_connection[connection_id] = rec` for records with a truthy
connection id (later wins). -/
def buildByConn (records : List KRecord) (connKey : String) : String → Option KRecord :=
  records.foldl
    (fun m r =>
      let c := extract_connection_id r connKey
      if c = "" then m else fun k => if k = c then some r else m k)
    (fun _ => Option.none)

structure ConnMissingEntry where
  obj29_id : String
  obj10_id : String
  name : String
  missing_email : String
  record_29 : KRecord
  record_10 : KRecord

structure OnlyIn10Entry where
  id : String
  email : String
  name : String
  identifier : String
  record : KRecord

structure Orphan29Entry where
  id : String
  email : String
  name : String
  identifier : String
  connection_id : String
  record : KRecord

structure MatchResult where
  only_in_10 : List OnlyIn10Entry
  truly_orphaned_29 : List Orphan29Entry
  connected_but_missing_email : List ConnMissingEntry
  duplicates_10 : List KRecord
  duplicates_29 : List KRecord

/-- The `connected_but_missing_email` test for one Object_29 record: no own
email, a truthy connection id, and a resolvable Object_10 target. -/
def connEntryOf (obj10_by_id : String → Option KRecord) (rec : KRecord) :
    Option ConnMissingEntry :=
  let email := extract_email_value rec "field_2732"
  let name := extract_name_value rec "field_1823"
  let conn := extract_connection_id rec "field_792"
  if email == "" && !(conn == "") then
    match obj10_by_id conn with
    | some r10 =>
      some { obj29_id := rec.id
             obj10_id := conn
             name := name
             missing_email := extract_email_value r10 "field_197"
             record_29 := rec
             record_10 := r10 }
    | Option.none => Option.none
  else Option.none

/-- The `only_in_10` test for one Object_10 index entry: identifier missing
from Object_29 and no Object_29 record connected to the record's id. -/
def only10EntryOf (ids29 : List String)
    (obj29_by_connection : String → Option KRecord)
    (p : String × KRecord) : Option OnlyIn10Entry :=
  if !p.1.startsWith "__" && !ids29.contains p.1 then
    if (obj29_by_connection p.2.id).isSome then Option.none
    else
      some { id := p.2.id
             email := extract_email_value p.2 "field_197"
             name := extract_name_value p.2 "field_187"
             identifier := p.1
             record := p.2 }
  else Option.none

/-- The `truly_orphaned_29` test for one Object_29 index entry: identifier
missing from Object_10 and no resolvable connection of its own. -/
def orphan29EntryOf (ids10 : List String)
    (obj10_by_id : String → Option KRecord)
    (p : String × KRecord) : Option Orphan29Entry :=
  if !p.1.startsWith "__" && !ids10.contains p.1 then
    let conn := extract_connection_id p.2 "field_792"
    if !(conn == "") && (obj10_by_id conn).isSome then Option.none
    else
      some { id := p.2.id
             email := extract_email_value p.2 "field_2732"
             name := extract_name_value p.2 "field_1823"
             identifier := p.1
             connection_id := if conn == "" then "none" else conn
             record := p.2 }
  else Option.none

/-- `compare_objects` (difference-building part).  The `only_in_10` /
`only_in_29` Python set differences are iterated here in index insertion
order; every claim about them is order-insensitive. -/
def compare_objects (records_10 records_29 : List KRecord) : MatchResult :=
  let st10 := records_10.foldl idx10Step {}
  let obj10_by_id := buildById records_10
  let st29 := records_29.foldl idx29Step {}
  let obj29_by_connection := buildByConn records_29 "field_792"
  let ids10 := (st10.entries.map Prod.fst).filter (fun k => !k.startsWith "__")
  let ids29 := (st29.entries.map Prod.fst).filter (fun k => !k.startsWith "__")
  { only_in_10 := st10.entries.filterMap (only10EntryOf ids29 obj29_by_connection)
    truly_orphaned_29 := st29.entries.filterMap (orphan29EntryOf ids10 obj10_by_id)
    connected_but_missing_email := records_29.filterMap (connEntryOf obj10_by_id)
    duplicates_10 := st10.dups
    duplicates_29 := st29.dups }

/-! ## `knack_consolidate_students.py`: chain classification

Object_3 uses `field_70`/`field_69`/`field_73` (email/name/role), Object_6
uses `field_91` with connection `field_182`, Object_10 is looked up by id,
Object_29 is connected through `field_792`.  The duplicate scan, the
email-mismatch and name-discrepancy side reports and the orphan lists of
`consolidate_students` do not feed the four chain buckets and are not
modelled; neither are the `chained_*_ids` sets they rely on. -/

/-- `by_email[email].append(rec)` index building for one collection, skipping
records whose extracted email is empty. -/
def buildByEmail (records : List KRecord) (emailKey : String) :
    List (String × List KRecord) :=
  records.foldl
    (fun gs r =>
      let e := extract_email_value r emailKey
      if e = "" then gs else addG gs e r)
    []

/-- Association-list lookup with the `dict.get(k, [])` default. -/
def lookupV (gs : List (String × List KRecord)) (k : String) : List KRecord :=
  (lookupL gs k).getD []

/-- The per-student `chain_status` record built by `consolidate_students`. -/
structure ChainStatus where
  email : String
  name : String
  obj3_id : String
  obj6_id : Option String := Option.none
  obj10_id : Option String := Option.none
  obj29_id : Option String := Option.none
  has_obj6 : Bool := false
  has_obj10 : Bool := false
  has_obj29 : Bool := false
deriving DecidableEq

/-- The chain walk for one Object_3 student: Object_6 by email (first of the
group), Object_6 → Object_10 by connection id, Object_10 → Object_29 by the
first Object_29 record whose `field_792` connection equals the Object_10 id. -/
def chainStatusOf (by6email : String → List KRecord)
    (by10id : String → Option KRecord) (records_29 : List KRecord)
    (rec3 : KRecord) : ChainStatus :=
  let email := extract_email_value rec3 "field_70"
  let name := extract_name_value rec3 "field_69"
  let base : ChainStatus := { email := email, name := name, obj3_id := rec3.id }
  if email == "" then base
  else
    match by6email email with
    | [] => base
    | r6 :: _ =>
      let s1 := { base with has_obj6 := true, obj6_id := some r6.id }
      let conn := extract_connection_id r6 "field_182"
      if conn == "" then s1
      else
        match by10id conn with
        | Option.none => s1
        | some _ =>
          let s2 := { s1 with has_obj10 := true, obj10_id := some conn }
          match records_29.filter
              (fun r => extract_connection_id r "field_792" == conn) with
          | [] => s2
          | r29 :: _ => { s2 with has_obj29 := true, obj29_id := some r29.id }

/-- The four chain buckets of `consolidate_students`. -/
structure Buckets where
  complete_chain : List ChainStatus := []
  obj3_missing_obj6 : List ChainStatus := []
  obj6_missing_obj10 : List ChainStatus := []
  obj10_missing_obj29 : List ChainStatus := []

/-- One Object_3 student through the classification loop: a blank email is
filed under `obj3_missing_obj6` immediately; otherwise a fully resolved chain
is complete, and a partial chain is filed under the first missing level. -/
def classifyStep (by6email : String → List KRecord)
    (by10id : String → Option KRecord) (records_29 : List KRecord)
    (b : Buckets) (rec3 : KRecord) : Buckets :=
  let email := extract_email_value rec3 "field_70"
  let st := chainStatusOf by6email by10id records_29 rec3
  if email == "" then
    { b with obj3_missing_obj6 := b.obj3_missing_obj6 ++ [st] }
  else if st.has_obj6 && st.has_obj10 && st.has_obj29 then
    { b with complete_chain := b.complete_chain ++ [st] }
  else if !st.has_obj6 then
    { b with obj3_missing_obj6 := b.obj3_missing_obj6 ++ [st] }
  else if !st.has_obj10 then
    { b with obj6_missing_obj10 := b.obj6_missing_obj10 ++ [st] }
  else if !st.has_obj29 then
    { b with obj10_missing_obj29 := b.obj10_missing_obj29 ++ [st] }
  else b

/-- `consolidate_students`, sliced to the student filter and the four chain
buckets. -/
def consolidate_students (records_3 records_6 records_10 records_29 : List KRecord) :
    Buckets :=
  let by6email := buildByEmail records_6 "field_91"
  let by10id := buildById records_10
  let students := records_3.filter (fun r => check_student_role r "field_73")
  students.foldl (classifyStep (fun e => lookupV by6email e) by10id records_29) {}

/-! ## `knack_consolidate_students.py` `main`: the create-missing-Object_29 loop -/

/-- Run state of the `--fix-create-obj29` loop. -/
structure FixCreateOut where
  created : Nat := 0
  errors : Nat := 0
  error_ids : List (Option String) := []
  attempts : List String := []

/-- One planned item through the loop: an Object_10 id that is missing from
the by-id index is reported as an error and skipped; otherwise a create call
is attempted, whose outcome the external API oracle `createOk` decides. -/
def fixCreateStep (byId : String → Option KRecord)
    (createOk : KRecord → Option String) (out : FixCreateOut)
    (item : ChainStatus) : FixCreateOut :=
  match (match item.obj10_id with
         | some i => byId i
         | Option.none => Option.none) with
  | Option.none =>
    { out with errors := out.errors + 1, error_ids := out.error_ids ++ [item.obj10_id] }
  | some r =>
    let out' := { out with attempts := out.attempts ++ [item.obj10_id.getD ""] }
    match createOk r with
    | some _ => { out' with created := out'.created + 1 }
    | Option.none => { out' with errors := out'.errors + 1 }

/-- The whole `--fix-create-obj29` apply loop over the planned items. -/
def fixCreateObj29 (byId : String → Option KRecord)
    (createOk : KRecord → Option String) (items : List ChainStatus) : FixCreateOut :=
  items.foldl (fixCreateStep byId createOk) {}

/-! ## Destructive-action gating of the two `main` entry points

The interactive prompt is an out-of-scope collaborator; each `confirm`
argument below is the phrase it delivers (the scripts strip surrounding
whitespace from the raw input line before comparing). -/

/-- An HTTP mutation request issued by a fix phase. -/
inductive KRequest where
  | populate (obj29Id email : String)
  | createFrom (obj10Id : String)
  | deleteRec (objectKey recId : String)
deriving DecidableEq

/-- The fix phases of `knack_reconcile_objects.main` after comparison, as the
list of mutation requests they issue.  Without `--apply` every branch only
prints a dry run; the create branch returns from `main` (issuing nothing
further) when its confirmation is refused. -/
def reconcileFixRequests (fixPopulate fixCreate29 fixDeleteOrphans apply : Bool)
    (confirmPopulate confirmCreate confirmDelete : String)
    (cmp : MatchResult) : List KRequest :=
  let reqs : List KRequest := []
  let reqs := if fixPopulate && !cmp.connected_but_missing_email.isEmpty then
      if !apply then reqs
      else if !(confirmPopulate == "POPULATE") then reqs
      else reqs ++ cmp.connected_but_missing_email.map
        (fun e => KRequest.populate e.obj29_id e.missing_email)
    else reqs
  if fixCreate29 && !cmp.only_in_10.isEmpty && apply && !(confirmCreate == "CREATE") then
    reqs
  else
    let reqs := if fixCreate29 && !cmp.only_in_10.isEmpty then
        if !apply then reqs
        else reqs ++ cmp.only_in_10.map (fun e => KRequest.createFrom e.id)
      else reqs
    if fixDeleteOrphans && !cmp.truly_orphaned_29.isEmpty then
      if !apply then reqs
      else if !(confirmDelete == "DELETE") then reqs
      else reqs ++ cmp.truly_orphaned_29.map
        (fun e => KRequest.deleteRec "object_29" e.id)
    else reqs

/-- The deletion phase of `knack_dedupe.main` after planning: dry-run (or a
missing `--apply`) issues nothing, an empty plan issues nothing, a refused
confirmation issues nothing, and otherwise every planned row is deleted. -/
def dedupeMainRequests (dryRun apply : Bool) (confirm : String)
    (objectKey : String) (deletions : List DelEntry) : List KRequest :=
  if dryRun || !apply then []
  else if deletions.length == 0 then []
  else if !(confirm == "DELETE") then []
  else deletions.map (fun d => KRequest.deleteRec objectKey d.delete_id)


/-! ## Declarative hop predicates for the Object_3 → Object_6 → Object_10 →
Object_29 chain, stated directly over the record lists -/

/-- The Object_6 profile a student resolves to: the first fetched Object_6
record whose extracted email equals the student's (blank emails never match,
mirroring their exclusion from the email index). -/
def obj6Match (records_6 : List KRecord) (rec3 : KRecord) : Option KRecord :=
  let email := extract_email_value rec3 "field_70"
  if email == "" then Option.none
  else (records_6.filter
    (fun r6 => extract_email_value r6 "field_91" == email)).head?

/-- Hop 1 (Object_3 → Object_6) resolves. -/
def hop1Ok (records_6 : List KRecord) (rec3 : KRecord) : Bool :=
  (obj6Match records_6 rec3).isSome

/-- The Object_10 connection id carried by the resolved Object_6 profile
(blank connection means none). -/
def hop2Conn (records_6 : List KRecord) (rec3 : KRecord) : Option String :=
  match obj6Match records_6 rec3 with
  | some r6 =>
    let c := extract_connection_id r6 "field_182"
    if c == "" then Option.none else some c
  | Option.none => Option.none

/-- Hop 2 (Object_6 → Object_10) resolves: the connection id names an
existing Object_10 record. -/
def hop2Ok (records_6 records_10 : List KRecord) (rec3 : KRecord) : Bool :=
  match hop2Conn records_6 rec3 with
  | some c => records_10.any (fun r => r.id == c)
  | Option.none => false

/-- Hop 3 (Object_10 → Object_29) resolves: hop 2 resolved and some
Object_29 record connects back to that Object_10 id. -/
def hop3Ok (records_6 records_10 records_29 : List KRecord) (rec3 : KRecord) : Bool :=
  match hop2Conn records_6 rec3 with
  | some c =>
    records_10.any (fun r => r.id == c)
      && records_29.any (fun r => extract_connection_id r "field_792" == c)
  | Option.none => false

/-! ## Spec-side role decoder (amended C7) -/

/-- The role string a (truthy) role value decodes to: a top-level string is
cleaned of HTML tags, a single-element list yields its element's raw string
or its mapping's `value`-else-`identifier`, a mapping yields
`value`-else-`identifier`; every decoded value is stripped.  Missing or empty
values and lists without exactly one element decode to nothing. -/
def roleValueOf (v : FVal) : Option String :=
  match v with
  | FVal.str s =>
    if s == "" then Option.none
    else some (pyStrip (String.mk (stripTags s.data)))
  | FVal.list [FVal.str s] => some (pyStrip s)
  | FVal.list [FVal.dict m] =>
    some (pyStrip (orEmpty (dGet m "value") (dGet m "identifier")))
  | FVal.list _ => Option.none
  | FVal.dict m =>
    if m.isEmpty then Option.none
    else some (pyStrip (orEmpty (dGet m "value") (dGet m "identifier")))
  | FVal.absent => Option.none

/-! ## Small statement helpers and concrete inputs -/

/-- The normalized email a record contributes to the dedupe grouping. -/
def normEmailOf (emailKey : String) (gm : Bool) (r : KRecord) : String :=
  normalize_email (extract_email_value_d r emailKey) gm

/-- A one-field record, for stating per-encoding extraction results. -/
def mkRec (v : FVal) : KRecord :=
  { id := "r", fields := [("f", v)] }

/-- All characters lower-case and non-whitespace (so `strip`/`lower` fix the
string). -/
def plainLower (l : List Char) : Bool :=
  l.all (fun c => Char.toLower c == c && !c.isWhitespace)

/-- Three Object_10 records sharing one email identifier. -/
def exA1 : KRecord := { id := "A1", fields := [("field_197", FVal.str "a@x.com")] }
def exA2 : KRecord := { id := "A2", fields := [("field_197", FVal.str "a@x.com")] }
def exA3 : KRecord := { id := "A3", fields := [("field_197", FVal.str "a@x.com")] }

/-- Three Object_29 records sharing one email identifier. -/
def exB1 : KRecord := { id := "B1", fields := [("field_2732", FVal.str "a@x.com")] }
def exB2 : KRecord := { id := "B2", fields := [("field_2732", FVal.str "a@x.com")] }
def exB3 : KRecord := { id := "B3", fields := [("field_2732", FVal.str "a@x.com")] }

/-- An Object_3 student, its Object_6 profile (connected to Object_10
`aaaaaaaaaaaaaaaaaaaaaaaa`), and that Object_10 record — a chain whose three
hops are ok, ok, broken when no Object_29 record connects back. -/
def exS3 : KRecord :=
  { id := "s3",
    fields := [("field_70", FVal.str "e@x.com"), ("field_69", FVal.str "Stu Dent"),
               ("field_73", FVal.str "Student")] }
def exS6 : KRecord :=
  { id := "s6",
    fields := [("field_91", FVal.str "e@x.com"),
               ("field_182", FVal.dict [("id", "aaaaaaaaaaaaaaaaaaaaaaaa")])] }
def exS10 : KRecord :=
  { id := "aaaaaaaaaaaaaaaaaaaaaaaa", fields := [("field_197", FVal.str "e@x.com")] }

/-- The two-record duplicate example of the dedupe spec. -/
def exD1 : KRecord :=
  { id := "1", createdAt := "2020-01-01", fields := [("field_70", FVal.str "a@x.com")] }
def exD2 : KRecord :=
  { id := "2", createdAt := "2019-01-01", fields := [("field_70", FVal.str "A@X.com ")] }

/-- An Object_29 record with no email of its own whose connection points at
Object_10 record `X10`, and that Object_10 record. -/
def exC29 : KRecord :=
  { id := "c29",
    fields := [("field_1823", FVal.str "Blank Email"),
               ("field_792", FVal.dict [("id", "X10")])] }
def exC10 : KRecord := { id := "X10", fields := [("field_197", FVal.str "Tgt@X.com")] }

/-- A planned create item whose Object_10 record exists, one whose record is
gone, and the backing Object_10 record. -/
def exT10 : KRecord := { id := "T10", fields := [("field_197", FVal.str "t@x.com")] }
def exItemOk : ChainStatus :=
  { email := "t@x.com", name := "T", obj3_id := "s1", obj10_id := some "T10" }
def exItemBad : ChainStatus :=
  { email := "g@x.com", name := "G", obj3_id := "s2", obj10_id := some "GONE" }

/-- A reconcile comparison result with a single truly orphaned Object_29
record, for exercising the delete gating. -/
def exCmp : MatchResult :=
  { only_in_10 := []
    truly_orphaned_29 :=
      [{ id := "o1", email := "o@x.com", name := "O", identifier := "email:o@x.com",
         connection_id := "none", record := { id := "o1" } }]
    connected_but_missing_email := []
    duplicates_10 := []
    duplicates_29 := [] }

/-- A student account with a Student role but no email, and an Object_6
profile sharing its name (but a different email). -/
def exS3b : KRecord :=
  { id := "s3b",
    fields := [("field_69", FVal.str "Same Name"), ("field_73", FVal.str "Student")] }
def exS6b : KRecord :=
  { id := "s6b",
    fields := [("field_90", FVal.str "Same Name"), ("field_91", FVal.str "other@x.com")] }

/-- The (stripped, lower-cased) domain half `normalize_email` splits off. -/
def emailDomainPart (email : String) : List Char :=
  pyStripL ((pyLowerL (pyStripL email.data)).drop
    (((pyLowerL (pyStripL email.data)).takeWhile (fun c => ¬ (c = '@'))).length + 1))

/-- The chain status of one student against the indexes `consolidate_students`
builds. -/
def chainStatusFull (r6s r10s r29s : List KRecord) (rec3 : KRecord) : ChainStatus :=
  chainStatusOf (fun e => lookupV (buildByEmail r6s "field_91") e)
    (buildById r10s) r29s rec3

/-! ## Supporting lemmas -/

theorem mk_data_eq (s : String) : String.mk s.data = s := rfl

/-- `buildById` finds a record exactly when one with that id was fetched. -/
theorem buildById_isSome_aux (records : List KRecord)
    (m : String → Option KRecord) (q : String) :
    (records.foldl (fun m r => fun k => if k = r.id then some r else m k) m q).isSome
      = true ↔ (∃ r ∈ records, r.id = q) ∨ (m q).isSome = true := by
  induction records generalizing m with
  | nil => simp
  | cons r rs ih =>
    simp only [List.foldl_cons, ih, List.mem_cons]
    constructor
    · rintro (⟨r', hr', hid⟩ | h)
      · exact Or.inl ⟨r', Or.inr hr', hid⟩
      · by_cases hq : q = r.id
        · exact Or.inl ⟨r, Or.inl rfl, hq.symm⟩
        · simp [hq] at h
          exact Or.inr h
    · rintro (⟨r', hr' | hr', hid⟩ | h)
      · subst hr'
        exact Or.inr (by simp [hid.symm])
      · exact Or.inl ⟨r', hr', hid⟩
      · by_cases hq : q = r.id
        · exact Or.inr (by simp [hq])
        · exact Or.inr (by simp [hq]; exact h)

theorem buildById_isSome (records : List KRecord) (q : String) :
    (buildById records q).isSome = true ↔ ∃ r ∈ records, r.id = q := by
  unfold buildById
  rw [buildById_isSome_aux]
  simp

/-- `buildByConn` finds a record exactly when one with that (nonempty)
connection id was fetched. -/
theorem buildByConn_isSome_aux (records : List KRecord) (connKey : String)
    (m : String → Option KRecord) (q : String) :
    ((records.foldl
        (fun m r =>
          let c := extract_connection_id r connKey
          if c = "" then m else fun k => if k = c then some r else m k) m) q).isSome
      = true ↔
    (∃ r ∈ records, ¬(extract_connection_id r connKey = "")
        ∧ extract_connection_id r connKey = q) ∨ (m q).isSome = true := by
  induction records generalizing m with
  | nil => simp
  | cons r rs ih =>
    simp only [List.foldl_cons, ih, List.mem_cons]
    constructor
    · rintro (⟨r', hr', hc, hq⟩ | h)
      · exact Or.inl ⟨r', Or.inr hr', hc, hq⟩
      · by_cases hc : extract_connection_id r connKey = ""
        · simp only [if_pos hc] at h
          exact Or.inr h
        · simp only [if_neg hc] at h
          by_cases hq : q = extract_connection_id r connKey
          · exact Or.inl ⟨r, Or.inl rfl, hc, hq.symm⟩
          · simp [hq] at h
            exact Or.inr h
    · rintro (⟨r', hr' | hr', hc, hq⟩ | h)
      · subst hr'
        refine Or.inr ?_
        simp only [if_neg hc]
        simp [hq]
      · exact Or.inl ⟨r', hr', hc, hq⟩
      · refine Or.inr ?_
        by_cases hc : extract_connection_id r connKey = ""
        · simp [hc, h]
        · simp only [if_neg hc]
          by_cases hq : q = extract_connection_id r connKey <;> simp [hq, h]

theorem buildByConn_isSome (records : List KRecord) (connKey : String) (q : String) :
    (buildByConn records connKey q).isSome = true ↔
      ∃ r ∈ records, ¬(extract_connection_id r connKey = "")
        ∧ extract_connection_id r connKey = q := by
  unfold buildByConn
  rw [buildByConn_isSome_aux]
  simp

theorem lookupL_nil {β : Type} (e : String) : lookupL ([] : List (String × β)) e = Option.none := rfl

theorem lookupL_cons_self {β : Type} (k : String) (g : β) (t : List (String × β)) :
    lookupL ((k, g) :: t) k = some g := by
  simp [lookupL, List.find?_cons_of_pos]

theorem lookupL_cons_ne {β : Type} {k e : String} (g : β) (t : List (String × β))
    (h : ¬(k = e)) : lookupL ((k, g) :: t) e = lookupL t e := by
  have : ((fun p => p.1 == e) ((k, g) : String × β)) = false := by
    simpa using h
  simp [lookupL, List.find?_cons_of_neg, this]

/-- Looking a key up after an `addG` upsert. -/
theorem lookupL_addG (gs : List (String × List KRecord)) (k : String) (r : KRecord)
    (e : String) :
    lookupL (addG gs k r) e =
      if e = k then some (((lookupL gs k).getD []) ++ [r]) else lookupL gs e := by
  induction gs with
  | nil =>
    by_cases h : e = k
    · subst h
      simp [addG, lookupL_cons_self, lookupL_nil]
    · simp [addG, lookupL_nil, lookupL_cons_ne _ _ (fun hh => h hh.symm), h]
  | cons p t ih =>
    obtain ⟨k', g'⟩ := p
    by_cases hk : k' = k
    · subst hk
      simp only [addG, eq_self_iff_true, if_true]
      by_cases he : e = k'
      · subst he
        simp [lookupL_cons_self]
      · rw [lookupL_cons_ne _ _ (fun hh => he hh.symm),
            lookupL_cons_ne _ _ (fun hh => he hh.symm), if_neg he]
    · simp only [addG, if_neg hk]
      by_cases he : e = k'
      · subst he
        rw [lookupL_cons_self, lookupL_cons_self, if_neg hk]
      · rw [lookupL_cons_ne _ _ (fun hh => he hh.symm), ih,
            lookupL_cons_ne _ _ (fun hh => he hh.symm)]
        by_cases hek : e = k
        · subst hek
          rw [if_pos rfl, if_pos rfl, lookupL_cons_ne _ _ (fun hh => he hh.symm)]
        · rw [if_neg hek, if_neg hek]

/-- Generic characterization of the group-building folds: looking up a
nonempty key returns exactly the records whose key matches, in fetch order. -/
theorem lookupV_groupFold (keyf : KRecord → String) (records : List KRecord)
    (gs : List (String × List KRecord)) (e : String) (he : ¬(e = "")) :
    ((lookupL (records.foldl
        (fun gs r =>
          let n := keyf r
          if n = "" then gs else addG gs n r) gs) e).getD [])
      = ((lookupL gs e).getD []) ++ records.filter (fun r => keyf r == e) := by
  induction records generalizing gs with
  | nil => simp
  | cons r rs ih =>
    simp only [List.foldl_cons]
    by_cases hn : keyf r = ""
    · have hne : (keyf r == e) = false := by
        simp [hn]
        intro h
        exact he h.symm
      simp only [if_pos hn, List.filter_cons, hne]
      exact ih gs
    · simp only [if_neg hn]
      rw [ih (addG gs (keyf r) r), lookupL_addG]
      by_cases hek : e = keyf r
      · have hbe : (keyf r == e) = true := by simp [hek]
        simp only [if_pos hek, List.filter_cons, hbe, Option.getD_some, hek]
        simp
      · have hbe : (keyf r == e) = false := by
          simp
          intro h
          exact hek h.symm
        simp only [if_neg hek, List.filter_cons, hbe]
        simp

/-- The keys produced by `addG`. -/
theorem addG_keys (gs : List (String × List KRecord)) (k : String) (r : KRecord) :
    (addG gs k r).map Prod.fst =
      if (gs.map Prod.fst).contains k then gs.map Prod.fst
      else gs.map Prod.fst ++ [k] := by
  induction gs with
  | nil => simp [addG]
  | cons p t ih =>
    obtain ⟨k', g'⟩ := p
    by_cases hk : k' = k
    · subst hk
      simp [addG]
    · have h2 : (k == k') = false := by
        simp
        exact fun h => hk h.symm
      simp only [addG, if_neg hk, List.map_cons, List.contains_cons, h2,
        Bool.false_or, ih]
      by_cases hc : (t.map Prod.fst).contains k
      · rw [if_pos hc, if_pos hc]
      · rw [if_neg hc, if_neg hc]
        simp

/-- Group-building folds keep their keys distinct. -/
theorem groupFold_keys_nodup (keyf : KRecord → String) (records : List KRecord)
    (gs : List (String × List KRecord)) (h : (gs.map Prod.fst).Nodup) :
    ((records.foldl
        (fun gs r =>
          let n := keyf r
          if n = "" then gs else addG gs n r) gs).map Prod.fst).Nodup := by
  induction records generalizing gs with
  | nil => exact h
  | cons r rs ih =>
    simp only [List.foldl_cons]
    by_cases hn : keyf r = ""
    · simp only [if_pos hn]
      exact ih gs h
    · simp only [if_neg hn]
      refine ih (addG gs (keyf r) r) ?_
      rw [addG_keys]
      by_cases hc : (gs.map Prod.fst).contains (keyf r)
      · rw [if_pos hc]
        exact h
      · rw [if_neg hc]
        have hnotin : ¬(keyf r ∈ gs.map Prod.fst) := by simpa using hc
        simp [List.nodup_append, h, hnotin]

/-- In a nodup-keyed association list, membership determines the lookup. -/
theorem lookupL_eq_of_mem {β : Type} (gs : List (String × β))
    (h : (gs.map Prod.fst).Nodup) (e : String) (b : β) (hm : (e, b) ∈ gs) :
    lookupL gs e = some b := by
  induction gs with
  | nil => simp at hm
  | cons p t ih =>
    obtain ⟨k', b'⟩ := p
    rcases List.mem_cons.mp hm with hh | ht
    · cases hh
      exact lookupL_cons_self _ _ _
    · have hk : ¬(k' = e) := by
        intro hke
        subst hke
        simp only [List.map_cons, List.nodup_cons] at h
        exact h.1 (List.mem_map_of_mem Prod.fst ht)
      rw [lookupL_cons_ne _ _ hk]
      refine ih ?_ ht
      simp only [List.map_cons, List.nodup_cons] at h
      exact h.2

/-- The fold of Python `min(..., key=sortKey)` stays in the list (or is the
seed) and is a lower bound for `sortKey`. -/
theorem foldl_min_spec (rs : List KRecord) (b : KRecord) :
    let m := rs.foldl (fun best x => if sortKey x < sortKey best then x else best) b
    (m = b ∨ m ∈ rs) ∧ sortKey m ≤ sortKey b ∧ ∀ r ∈ rs, sortKey m ≤ sortKey r := by
  induction rs generalizing b with
  | nil => simp
  | cons r rs ih =>
    simp only [List.foldl_cons]
    by_cases hlt : sortKey r < sortKey b
    · simp only [if_pos hlt]
      obtain ⟨hmem, hle, hall⟩ := ih r
      refine ⟨?_, ?_, ?_⟩
      · rcases hmem with h | h
        · exact Or.inr (by simp [h])
        · exact Or.inr (by simp [h])
      · exact le_trans hle (le_of_lt hlt)
      · intro x hx
        rcases List.mem_cons.mp hx with h | h
        · exact h ▸ hle
        · exact hall x h
    · simp only [if_neg hlt]
      obtain ⟨hmem, hle, hall⟩ := ih b
      refine ⟨?_, hle, ?_⟩
      · rcases hmem with h | h
        · exact Or.inl h
        · exact Or.inr (by simp [h])
      · intro x hx
        rcases List.mem_cons.mp hx with h | h
        · subst h
          exact le_trans hle (not_lt.mp hlt)
        · exact hall x h

/-- `choose_record_to_keep` under the default `oldest` policy: the keeper is a
member with minimal parsed creation key. -/
theorem choose_oldest_spec (g : List KRecord) (hne : ¬(g = [])) :
    ∃ k, choose_record_to_keep g "oldest" = some k ∧ k ∈ g
      ∧ ∀ r ∈ g, sortKey k ≤ sortKey r := by
  match g with
  | [] => exact absurd rfl hne
  | r :: rs =>
    have hch : choose_record_to_keep (r :: rs) "oldest"
        = some (rs.foldl (fun best x => if sortKey x < sortKey best then x else best) r) := by
      simp [choose_record_to_keep]
    obtain ⟨hmem, hle, hall⟩ := foldl_min_spec rs r
    refine ⟨_, hch, ?_, ?_⟩
    · rcases hmem with h | h
      · simp [h]
      · simp [h]
    · intro x hx
      rcases List.mem_cons.mp hx with h | h
      · exact h ▸ hle
      · exact hall x h

/-- Any successfully parsed creation date is at least `datetime.min`. -/
theorem parse_dt_ge {s : String} {n : Nat} (h : parse_dt s = some n) : dtMin ≤ n := by
  unfold parse_dt at h
  split at h
  · split at h
    · split at h
      · rename_i hcond
        simp only [Option.some.injEq] at h
        subst h
        simp only [Bool.and_eq_true, decide_eq_true_eq] at hcond
        obtain ⟨⟨⟨⟨hy, hm⟩, _⟩, hd⟩, _⟩ := hcond
        unfold dtMin
        omega
      · exact absurd h (by simp)
    · exact absurd h (by simp)
  · exact absurd h (by simp)

/-- A record with an unparseable (or missing) creation timestamp sorts at or
before every record: it is always "oldest". -/
theorem sortKey_unparseable_min (r r' : KRecord)
    (h : parse_dt r.createdAt = Option.none) : sortKey r ≤ sortKey r' := by
  unfold sortKey
  rw [h]
  simp only [Option.getD_none]
  cases h' : parse_dt r'.createdAt with
  | none => simp
  | some n => simpa using parse_dt_ge h'

/-- `plan_deletions` grouping: a nonempty normalized email's group is exactly
the records normalizing to it, in fetch order. -/
theorem lookupV_buildGroups (records : List KRecord) (emailKey : String)
    (gm : Bool) (e : String) (he : ¬(e = "")) :
    (lookupL (buildGroups records emailKey gm) e).getD []
      = records.filter (fun r => normEmailOf emailKey gm r == e) := by
  have h := lookupV_groupFold
    (fun r => normalize_email (extract_email_value_d r emailKey) gm) records [] e he
  simpa [buildGroups, normEmailOf, lookupL] using h

/-- `consolidate_students` by-email indexing: a nonempty email's group is
exactly the records extracting to it, in fetch order. -/
theorem lookupV_buildByEmail (records : List KRecord) (emailKey : String)
    (e : String) (he : ¬(e = "")) :
    lookupV (buildByEmail records emailKey) e
      = records.filter (fun r => extract_email_value r emailKey == e) := by
  have h := lookupV_groupFold
    (fun r => extract_email_value r emailKey) records [] e he
  simpa [buildByEmail, lookupV, lookupL] using h

theorem buildGroups_keys_nodup (records : List KRecord) (emailKey : String)
    (gm : Bool) : ((buildGroups records emailKey gm).map Prod.fst).Nodup := by
  have h := groupFold_keys_nodup
    (fun r => normalize_email (extract_email_value_d r emailKey) gm) records []
    (by simp)
  simpa [buildGroups] using h

/-- Folding list appends from the empty list is `List.bind`. -/
theorem foldl_append_bind {α β : Type} (l : List α) (f : α → List β) :
    ∀ init : List β, l.foldl (fun acc x => acc ++ f x) init = init ++ l.flatMap f := by
  induction l with
  | nil => simp
  | cons x t ih =>
    intro init
    simp only [List.foldl_cons, ih, List.flatMap_cons]
    simp

/-- The `--fix-create-obj29` loop, characterized: the attempted creations are
exactly the resolvable items in order, the error count adds unresolvable
items to failed creations, and every unresolvable item leaves an error entry. -/
theorem fixCreate_fold_spec (byId : String → Option KRecord)
    (createOk : KRecord → Option String) (items : List ChainStatus)
    (out : FixCreateOut) :
    let res := items.foldl (fixCreateStep byId createOk) out
    let resolve := fun (it : ChainStatus) =>
      (match it.obj10_id with
       | some i => byId i
       | Option.none => Option.none)
    res.attempts = out.attempts
        ++ (items.filter (fun it => (resolve it).isSome)).map (fun it => it.obj10_id.getD "")
      ∧ res.errors = out.errors + (items.filter (fun it => (resolve it).isNone)).length
          + (items.filter (fun it =>
              match resolve it with
              | some r => (createOk r).isNone
              | Option.none => false)).length
      ∧ res.error_ids = out.error_ids
          ++ (items.filter (fun it => (resolve it).isNone)).map (fun it => it.obj10_id) := by
  induction items generalizing out with
  | nil => simp
  | cons it ts ih =>
    simp only [List.foldl_cons]
    obtain ⟨ha, he, hi⟩ := ih (fixCreateStep byId createOk out it)
    cases hres : (match it.obj10_id with
                  | some i => byId i
                  | Option.none => Option.none) with
    | none =>
      refine ⟨?_, ?_, ?_⟩
      · rw [ha]
        simp [fixCreateStep, hres]
      · rw [he]
        simp [fixCreateStep, hres]
        omega
      · rw [hi]
        simp [fixCreateStep, hres]
    | some r =>
      cases hok : createOk r with
      | none =>
        refine ⟨?_, ?_, ?_⟩
        · rw [ha]
          simp [fixCreateStep, hres, hok]
        · rw [he]
          simp [fixCreateStep, hres, hok]
          omega
        · rw [hi]
          simp [fixCreateStep, hres, hok]
      | some nid =>
        refine ⟨?_, ?_, ?_⟩
        · rw [ha]
          simp [fixCreateStep, hres, hok]
        · rw [he]
          simp [fixCreateStep, hres, hok]
        · rw [hi]
          simp [fixCreateStep, hres, hok]

/-! ## Claim theorems -/

/-- C1 (code bug evaluation): on three Object_10 records sharing the email
identifier `a@x.com`, `compare_objects` reports only the third record in
`duplicates_10` — the guard tests the key `duplicates_10` while the list is
stored under `__duplicates_10__`, so the list is reset before every append —
whereas the parallel (correctly keyed) Object_29 code reports both records
beyond the first. -/
theorem C1_duplicates10_eval :
    ((compare_objects [exA1, exA2, exA3] []).duplicates_10).map KRecord.id = ["A3"]
      ∧ ((compare_objects [] [exB1, exB2, exB3]).duplicates_29).map KRecord.id
          = ["B2", "B3"] := by
  decide

/-- C3 (counterexample): a chain whose hops are ok (Object_6 found by email),
ok (Object_6's connection resolves to Object_10), broken (no Object_29
connects back) is bucketed under `obj10_missing_obj29` — the third hop's
failure category — and not under `obj6_missing_obj10`, the second hop's
failure category named by the claim. -/
theorem C3_counterexample :
    ((consolidate_students [exS3] [exS6] [exS10] []).obj10_missing_obj29).map
        ChainStatus.obj3_id = ["s3"]
      ∧ (consolidate_students [exS3] [exS6] [exS10] []).obj6_missing_obj10 = []
      ∧ (consolidate_students [exS3] [exS6] [exS10] []).complete_chain = [] := by
  decide

/-- C4 (counterexample): with Gmail normalization disabled,
`normalize_email` still folds the `+b` tag of `a+b@x.com` away, so the result
differs from the trimmed lower-cased input and coincides with the
normalization of `a@x.com` even though Gmail folding is off. -/
theorem C4_counterexample :
    normalize_email "a+b@x.com" false = "a@x.com"
      ∧ ¬(normalize_email "a+b@x.com" false = pyLower (pyStrip "a+b@x.com"))
      ∧ normalize_email "a+b@x.com" false = normalize_email "a@x.com" false := by
  decide

/-- C7 (counterexample): the same underlying string `<b>Student</b>` passes
the role check as a top-level string (HTML tags are stripped there) but fails
it as a single-element list (no stripping there), so no predicate on the
encoded role value alone matches `check_student_role` as the claim states;
also, the raw string does not equal `Student` case-insensitively. -/
theorem C7_counterexample :
    check_student_role
        { id := "x", fields := [("field_73", FVal.str "<b>Student</b>")] } "field_73" = true
      ∧ check_student_role
          { id := "x", fields := [("field_73", FVal.list [FVal.str "<b>Student</b>"])] }
          "field_73" = false
      ∧ ¬(pyLower "<b>Student</b>" = "student") := by
  decide

/-- C9: in the `--fix-create-obj29` apply loop, a planned item whose
Object_10 record is absent from the by-id index is skipped (no create request
is attempted for it), contributes one error and an error entry, and the
remaining items are still processed: the attempted creations are exactly the
resolvable items, in order, and the error count is the number of
unresolvable items plus the number of failed creations. -/
theorem C9_create_missing_skips (byId : String → Option KRecord)
    (createOk : KRecord → Option String) (items : List ChainStatus) :
    (fixCreateObj29 byId createOk items).attempts
        = (items.filter (fun it =>
            (match it.obj10_id with
             | some i => byId i
             | Option.none => Option.none).isSome)).map (fun it => it.obj10_id.getD "")
      ∧ (fixCreateObj29 byId createOk items).errors
          = (items.filter (fun it =>
              (match it.obj10_id with
               | some i => byId i
               | Option.none => Option.none).isNone)).length
            + (items.filter (fun it =>
                match (match it.obj10_id with
                       | some i => byId i
                       | Option.none => Option.none) with
                | some r => (createOk r).isNone
                | Option.none => false)).length
      ∧ ∀ it ∈ items,
          (match it.obj10_id with
           | some i => byId i
           | Option.none => Option.none) = Option.none →
            it.obj10_id ∈ (fixCreateObj29 byId createOk items).error_ids := by
  obtain ⟨ha, he, hi⟩ := fixCreate_fold_spec byId createOk items {}
  refine ⟨?_, ?_, ?_⟩
  · simpa using ha
  · simpa using he
  · intro it hmem hnone
    rw [fixCreateObj29, hi]
    simp only [List.nil_append]
    exact List.mem_map_of_mem _ (List.mem_filter.mpr ⟨hmem, by simp [hnone]⟩)

/-- C9 (witness): with Object_10 record `T10` fetched and item `s2` pointing
at the vanished record `GONE`, the loop reports `GONE` as an error entry. -/
theorem C9_create_missing_skips_witness :
    exItemBad ∈ [exItemOk, exItemBad]
      ∧ exItemBad.obj10_id
          ∈ (fixCreateObj29 (buildById [exT10]) (fun _ => some "new")
              [exItemOk, exItemBad]).error_ids :=
  ⟨by decide,
    (C9_create_missing_skips (buildById [exT10]) (fun _ => some "new")
        [exItemOk, exItemBad]).2.2 exItemBad (by decide) (by rfl)⟩

/-- C8: across the dedupe and reconcile entry points, a delete request is
issued only when the apply flag is set and the delivered confirmation phrase
is exactly `DELETE`; without the apply flag neither entry point issues any
mutation request at all. -/
theorem C8_delete_gating (fp fc fd apply dryRun : Bool)
    (cPop cCreate cDel confirm objectKey : String)
    (cmp : MatchResult) (deletions : List DelEntry) :
    (∀ ok rid,
        KRequest.deleteRec ok rid ∈ reconcileFixRequests fp fc fd apply cPop cCreate cDel cmp →
          apply = true ∧ cDel = "DELETE")
      ∧ (apply = false → reconcileFixRequests fp fc fd apply cPop cCreate cDel cmp = [])
      ∧ (∀ ok rid,
          KRequest.deleteRec ok rid ∈ dedupeMainRequests dryRun apply confirm objectKey deletions →
            apply = true ∧ dryRun = false ∧ confirm = "DELETE")
      ∧ (apply = false → dedupeMainRequests dryRun apply confirm objectKey deletions = []) := by
  refine ⟨?_, ?_, ?_, ?_⟩
  · intro ok rid hmem
    cases happly : apply with
    | false =>
      rw [happly] at hmem
      simp [reconcileFixRequests] at hmem
    | true =>
      rw [happly] at hmem
      by_cases hdel : cDel = "DELETE"
      · exact ⟨rfl, hdel⟩
      · exfalso
        have hd : (cDel == "DELETE") = false := by simp [hdel]
        by_cases hP : (fp && !cmp.connected_but_missing_email.isEmpty) = true <;>
          by_cases hC : (fc && !cmp.only_in_10.isEmpty) = true <;>
            by_cases hD : (fd && !cmp.truly_orphaned_29.isEmpty) = true <;>
              by_cases hCC : (cCreate == "CREATE") = true <;>
                by_cases hPP : (cPop == "POPULATE") = true <;>
                  simp_all [reconcileFixRequests, List.mem_append, List.mem_map]
  · intro h
    rw [h]
    simp [reconcileFixRequests]
  · intro ok rid hmem
    cases happly : apply with
    | false =>
      rw [happly] at hmem
      simp [dedupeMainRequests] at hmem
    | true =>
      rw [happly] at hmem
      cases hdry : dryRun with
      | true =>
        rw [hdry] at hmem
        simp [dedupeMainRequests] at hmem
      | false =>
        rw [hdry] at hmem
        by_cases hdel : confirm = "DELETE"
        · exact ⟨rfl, rfl, hdel⟩
        · exfalso
          have hd : (confirm == "DELETE") = false := by simp [hdel]
          by_cases hlen : deletions.length = 0 <;>
            simp_all [dedupeMainRequests]
  · intro h
    rw [h]
    simp [dedupeMainRequests]

/-- C8 (witness): with `--fix-delete-orphans`, `--apply` and the typed
confirmation `DELETE`, the reconcile script does issue the orphan delete, and
the gate certifies the flag and phrase. -/
theorem C8_delete_gating_witness :
    (KRequest.deleteRec "object_29" "o1"
        ∈ reconcileFixRequests false false true true "" "" "DELETE" exCmp)
      ∧ (true = true ∧ "DELETE" = "DELETE") :=
  ⟨by decide,
    (C8_delete_gating false false true true false "" "" "DELETE" "" "object_10" exCmp
        []).1 "object_29" "o1" (by decide)⟩

/-- C7 (amended): `check_student_role` succeeds exactly when the role value
decodes — per its encoding, with HTML tags stripped for top-level strings
only and every decoded value trimmed — to the literal `Student`
case-insensitively; missing or empty values and lists without exactly one
element never match. -/
theorem C7_role_check_amended (r : KRecord) (f : String) :
    check_student_role r f = true ↔
      ∃ s, roleValueOf (kget r f) = some s ∧ pyLower s = "student" := by
  unfold check_student_role roleValueOf
  cases hv : kget r f with
  | absent => simp [pyTruthy]
  | str s =>
    by_cases hs : s = ""
    · subst hs
      simp [pyTruthy]
    · have hbe : (s == "") = false := by simp [hs]
      simp [pyTruthy, hbe, beq_iff_eq]
  | dict m =>
    by_cases hm : m = []
    · subst hm
      simp [pyTruthy, List.isEmpty]
    · have hbe : m.isEmpty = false := by
        cases m with
        | nil => exact absurd rfl hm
        | cons a t => rfl
      simp [pyTruthy, hbe, beq_iff_eq]
  | list l =>
    match l with
    | [] => simp [pyTruthy, List.isEmpty]
    | [FVal.absent] => simp [pyTruthy]
    | [FVal.str s] => simp [pyTruthy, beq_iff_eq]
    | [FVal.dict m] => simp [pyTruthy, beq_iff_eq]
    | [FVal.list l'] => simp [pyTruthy]
    | x :: y :: t => simp [pyTruthy]

/-- C7 (witness): the single role ` Student ` (with surrounding whitespace)
decodes to `Student` and passes the check. -/
theorem C7_role_check_amended_witness :
    check_student_role
      { id := "x", fields := [("field_73", FVal.str " Student ")] } "field_73" = true :=
  (C7_role_check_amended
      { id := "x", fields := [("field_73", FVal.str " Student ")] } "field_73").mpr
    ⟨"Student", by decide, by decide⟩

/-- C2: an Object_29 record with a blank extracted email whose connection
resolves to an existing Object_10 record is reported under
`connected_but_missing_email`, never contributes to `truly_orphaned_29`, and
the Object_10 record it points at is excluded from `only_in_10` — connection
resolution outranks identifier presence. -/
theorem C2_connection_precedence (records_10 records_29 : List KRecord)
    (rec29 r10 : KRecord) (hmem : rec29 ∈ records_29)
    (hemail : extract_email_value rec29 "field_2732" = "")
    (hconn : ¬(extract_connection_id rec29 "field_792" = ""))
    (hres : buildById records_10 (extract_connection_id rec29 "field_792") = some r10) :
    (∃ en ∈ (compare_objects records_10 records_29).connected_but_missing_email,
        en.obj29_id = rec29.id
          ∧ en.obj10_id = extract_connection_id rec29 "field_792"
          ∧ en.record_29 = rec29 ∧ en.record_10 = r10)
      ∧ (∀ en ∈ (compare_objects records_10 records_29).truly_orphaned_29,
          ¬(en.record = rec29))
      ∧ (∀ en ∈ (compare_objects records_10 records_29).only_in_10,
          ¬(en.id = extract_connection_id rec29 "field_792")) := by
  have hbe : (extract_email_value rec29 "field_2732" == "") = true := by simp [hemail]
  have hbc : (extract_connection_id rec29 "field_792" == "") = false := by simp [hconn]
  refine ⟨?_, ?_, ?_⟩
  · refine ⟨{ obj29_id := rec29.id
              obj10_id := extract_connection_id rec29 "field_792"
              name := extract_name_value rec29 "field_1823"
              missing_email := extract_email_value r10 "field_197"
              record_29 := rec29
              record_10 := r10 },
      List.mem_filterMap.mpr ⟨rec29, hmem, ?_⟩, rfl, rfl, rfl, rfl⟩
    simp [connEntryOf, hbe, hbc, hres]
  · intro en hen heq
    obtain ⟨p, _, hp⟩ := List.mem_filterMap.mp hen
    simp only [orphan29EntryOf] at hp
    split at hp
    · split at hp
      · exact Option.noConfusion hp
      · rename_i hcond
        simp only [Option.some.injEq] at hp
        have hrec : p.2 = rec29 := by
          rw [← hp] at heq
          exact heq
        rw [hrec] at hcond
        simp only [hbc, Bool.not_false, Bool.true_and] at hcond
        rw [hres] at hcond
        simp at hcond
    · exact Option.noConfusion hp
  · intro en hen heq
    obtain ⟨p, _, hp⟩ := List.mem_filterMap.mp hen
    simp only [only10EntryOf] at hp
    split at hp
    · split at hp
      · exact Option.noConfusion hp
      · rename_i hcond
        simp only [Option.some.injEq] at hp
        have hid : p.2.id = extract_connection_id rec29 "field_792" := by
          rw [← hp] at heq
          exact heq
        rw [hid] at hcond
        have hsome : (buildByConn records_29 "field_792"
            (extract_connection_id rec29 "field_792")).isSome = true :=
          (buildByConn_isSome records_29 "field_792" _).mpr ⟨rec29, hmem, hconn, rfl⟩
        exact hcond hsome
    · exact Option.noConfusion hp

/-- C2 (witness): the blank-email Object_29 record `c29` connected to
Object_10 record `X10` is filed as connected-but-missing-email, is not
orphaned, and keeps `X10` out of `only_in_10`. -/
theorem C2_connection_precedence_witness :
    (∃ en ∈ (compare_objects [exC10] [exC29]).connected_but_missing_email,
        en.obj29_id = exC29.id
          ∧ en.obj10_id = extract_connection_id exC29 "field_792"
          ∧ en.record_29 = exC29 ∧ en.record_10 = exC10)
      ∧ (∀ en ∈ (compare_objects [exC10] [exC29]).truly_orphaned_29,
          ¬(en.record = exC29))
      ∧ (∀ en ∈ (compare_objects [exC10] [exC29]).only_in_10,
          ¬(en.id = extract_connection_id exC29 "field_792")) :=
  C2_connection_precedence [exC10] [exC29] exC29 exC10 (List.Mem.head _)
    (by decide) (by decide) (by rfl)

theorem dropWhile_eq_self_of_all {p : Char → Bool} {l : List Char}
    (h : ∀ c ∈ l, p c = false) : l.dropWhile p = l := by
  cases l with
  | nil => rfl
  | cons c t => simp [List.dropWhile_cons, h c (List.mem_cons_self c t)]

theorem pyStripL_no_ws {l : List Char} (h : ∀ c ∈ l, c.isWhitespace = false) :
    pyStripL l = l := by
  unfold pyStripL
  rw [dropWhile_eq_self_of_all h,
      dropWhile_eq_self_of_all (fun c hc => h c (List.mem_reverse.mp hc)),
      List.reverse_reverse]

theorem pyLowerL_fixed {l : List Char} (h : ∀ c ∈ l, c.toLower = c) :
    pyLowerL l = l := by
  unfold pyLowerL
  induction l with
  | nil => rfl
  | cons c t ih =>
    rw [List.map_cons, h c (List.mem_cons_self c t),
        ih (fun x hx => h x (List.mem_cons_of_mem c hx))]

theorem takeWhile_append_of_all {p : Char → Bool} {xs : List Char} (y : Char)
    (ys : List Char) (hx : ∀ c ∈ xs, p c = true) (hy : p y = false) :
    (xs ++ y :: ys).takeWhile p = xs := by
  induction xs with
  | nil => simp [List.takeWhile_cons, hy]
  | cons c t ih =>
    simp only [List.cons_append, List.takeWhile_cons,
      hx c (List.mem_cons_self c t), if_true]
    rw [ih (fun x hx' => hx x (List.mem_cons_of_mem c hx'))]

theorem drop_append_cons (xs : List Char) (y : Char) (ys : List Char) :
    (xs ++ y :: ys).drop (xs.length + 1) = ys := by
  induction xs with
  | nil => simp
  | cons c t ih => simpa using ih

theorem plainLower_spec {l : List Char} (h : plainLower l = true) :
    ∀ c ∈ l, (c.toLower = c ∧ c.isWhitespace = false) := by
  intro c hc
  unfold plainLower at h
  have := (List.all_eq_true.mp h) c hc
  simp only [Bool.and_eq_true, beq_iff_eq, Bool.not_eq_true'] at this
  exact this

/-- C4 (amended): canonicalization is trim and lower-case, with the `+tag`
suffix of the local part dropped unconditionally; only the Gmail dot folding
(and `googlemail.com` renaming) is gated by the optional flag.  (i) With no
`@`, normalization is exactly trim-and-lower; (ii) two addresses differing
only by a `+tag` local suffix normalize identically whatever the flag;
(iii) off the Gmail domains the flag makes no difference. -/
theorem C4_normalize_email_amended :
    (∀ (e : String) (b : Bool),
        (pyLowerL (pyStripL e.data)).contains '@' = false →
          normalize_email e b = String.mk (pyLowerL (pyStripL e.data)))
      ∧ (∀ (l t d : String) (b : Bool),
          plainLower l.data = true → plainLower t.data = true →
          plainLower d.data = true →
          l.data.contains '@' = false → l.data.contains '+' = false →
          t.data.contains '@' = false →
          normalize_email (l ++ "+" ++ t ++ "@" ++ d) b
            = normalize_email (l ++ "@" ++ d) b)
      ∧ (∀ e : String,
          ¬(emailDomainPart e = "gmail.com".data) →
          ¬(emailDomainPart e = "googlemail.com".data) →
          normalize_email e true = normalize_email e false) := by
  refine ⟨?_, ?_, ?_⟩
  · intro e b h
    unfold normalize_email
    by_cases he : e = ""
    · subst he
      rfl
    · rw [if_neg he]
      unfold normEmailCore
      rw [if_pos h]
  · intro l t d b hl ht hd hla hlp hta
    have hlc : ∀ c ∈ l.data, c.toLower = c := fun c hc => (plainLower_spec hl c hc).1
    have hlw : ∀ c ∈ l.data, c.isWhitespace = false := fun c hc => (plainLower_spec hl c hc).2
    have htc : ∀ c ∈ t.data, c.toLower = c := fun c hc => (plainLower_spec ht c hc).1
    have htw : ∀ c ∈ t.data, c.isWhitespace = false := fun c hc => (plainLower_spec ht c hc).2
    have hdc : ∀ c ∈ d.data, c.toLower = c := fun c hc => (plainLower_spec hd c hc).1
    have hdw : ∀ c ∈ d.data, c.isWhitespace = false := fun c hc => (plainLower_spec hd c hc).2
    have hlna : ∀ c ∈ l.data, ¬(c = '@') := by
      intro c hc hceq
      subst hceq
      simp [List.contains_iff_exists_mem_beq] at hla
      exact hla hc
    have hlnp : ∀ c ∈ l.data, ¬(c = '+') := by
      intro c hc hceq
      subst hceq
      simp [List.contains_iff_exists_mem_beq] at hlp
      exact hlp hc
    have htna : ∀ c ∈ t.data, ¬(c = '@') := by
      intro c hc hceq
      subst hceq
      simp [List.contains_iff_exists_mem_beq] at hta
      exact hta hc
    have hd1 : (l ++ "+" ++ t ++ "@" ++ d).data
        = l.data ++ '+' :: (t.data ++ '@' :: d.data) := by
      simp [String.data_append]
    have hd2 : (l ++ "@" ++ d).data = l.data ++ '@' :: d.data := by
      simp [String.data_append]
    have hne1 : ¬((l ++ "+" ++ t ++ "@" ++ d) = "") := by
      intro hcontra
      have := congrArg String.data hcontra
      rw [hd1] at this
      simp at this
    have hne2 : ¬((l ++ "@" ++ d) = "") := by
      intro hcontra
      have := congrArg String.data hcontra
      rw [hd2] at this
      simp at this
    have hws1 : ∀ c ∈ l.data ++ '+' :: (t.data ++ '@' :: d.data),
        c.isWhitespace = false := by
      intro c hc
      rcases List.mem_append.mp hc with h | h
      · exact hlw c h
      · rcases List.mem_cons.mp h with h | h
        · subst h; rfl
        · rcases List.mem_append.mp h with h | h
          · exact htw c h
          · rcases List.mem_cons.mp h with h | h
            · subst h; rfl
            · exact hdw c h
    have hlo1 : ∀ c ∈ l.data ++ '+' :: (t.data ++ '@' :: d.data), c.toLower = c := by
      intro c hc
      rcases List.mem_append.mp hc with h | h
      · exact hlc c h
      · rcases List.mem_cons.mp h with h | h
        · subst h; rfl
        · rcases List.mem_append.mp h with h | h
          · exact htc c h
          · rcases List.mem_cons.mp h with h | h
            · subst h; rfl
            · exact hdc c h
    have hws2 : ∀ c ∈ l.data ++ '@' :: d.data, c.isWhitespace = false := by
      intro c hc
      rcases List.mem_append.mp hc with h | h
      · exact hlw c h
      · rcases List.mem_cons.mp h with h | h
        · subst h; rfl
        · exact hdw c h
    have hlo2 : ∀ c ∈ l.data ++ '@' :: d.data, c.toLower = c := by
      intro c hc
      rcases List.mem_append.mp hc with h | h
      · exact hlc c h
      · rcases List.mem_cons.mp h with h | h
        · subst h; rfl
        · exact hdc c h
    have hsplit1 : l.data ++ '+' :: (t.data ++ '@' :: d.data)
        = (l.data ++ '+' :: t.data) ++ '@' :: d.data := by simp
    have hat1 : ((l.data ++ '+' :: t.data) ++ '@' :: d.data).contains '@' = true := by
      simp [List.contains_iff_exists_mem_beq]
    have hat2 : (l.data ++ '@' :: d.data).contains '@' = true := by
      simp [List.contains_iff_exists_mem_beq]
    have htk1 : ((l.data ++ '+' :: t.data) ++ '@' :: d.data).takeWhile
        (fun c => ¬ (c = '@')) = l.data ++ '+' :: t.data := by
      refine takeWhile_append_of_all '@' d.data ?_ (by simp)
      intro c hc
      simp only [decide_eq_true_eq]
      rcases List.mem_append.mp hc with h | h
      · exact hlna c h
      · rcases List.mem_cons.mp h with h | h
        · subst h; decide
        · exact htna c h
    have htk2 : (l.data ++ '@' :: d.data).takeWhile (fun c => ¬ (c = '@'))
        = l.data := by
      refine takeWhile_append_of_all '@' d.data ?_ (by simp)
      intro c hc
      simp only [decide_eq_true_eq]
      exact hlna c hc
    have hwsl : ∀ c ∈ l.data ++ '+' :: t.data, c.isWhitespace = false := by
      intro c hc
      rcases List.mem_append.mp hc with h | h
      · exact hlw c h
      · rcases List.mem_cons.mp h with h | h
        · subst h; rfl
        · exact htw c h
    have hpl1 : (l.data ++ '+' :: t.data).contains '+' = true := by
      simp [List.contains_iff_exists_mem_beq]
    have htkp : (l.data ++ '+' :: t.data).takeWhile (fun c => ¬ (c = '+'))
        = l.data := by
      refine takeWhile_append_of_all '+' t.data ?_ (by simp)
      intro c hc
      simp only [decide_eq_true_eq]
      exact hlnp c hc
    have hpf1 : plusFold (l.data ++ '+' :: t.data) = l.data := by
      unfold plusFold
      rw [hpl1, if_pos rfl, htkp]
    have hpf2 : plusFold l.data = l.data := by
      unfold plusFold
      rw [hlp]
      simp
    unfold normalize_email
    rw [if_neg hne1, if_neg hne2, hd1, hd2, pyStripL_no_ws hws1,
        pyLowerL_fixed hlo1, pyStripL_no_ws hws2, pyLowerL_fixed hlo2]
    unfold normEmailCore
    rw [hsplit1, hat1, hat2]
    rw [if_neg (by simp : ¬(true = false)), if_neg (by simp : ¬(true = false))]
    rw [htk1, htk2, drop_append_cons, drop_append_cons,
        pyStripL_no_ws hwsl, pyStripL_no_ws (fun c hc => hlw c hc),
        pyStripL_no_ws (fun c hc => hdw c hc)]
    unfold normEmailSplit
    rw [hpf1, hpf2]
  · intro e hg1 hg2
    unfold normalize_email
    by_cases he : e = ""
    · rw [if_pos he, if_pos he]
    · rw [if_neg he, if_neg he]
      unfold normEmailCore
      by_cases hat : (pyLowerL (pyStripL e.data)).contains '@' = false
      · rw [if_pos hat, if_pos hat]
      · rw [if_neg hat, if_neg hat]
        unfold normEmailSplit
        have hcond1 : ¬((true
            && (decide (pyStripL ((pyLowerL (pyStripL e.data)).drop
                (((pyLowerL (pyStripL e.data)).takeWhile
                  (fun c => ¬ (c = '@'))).length + 1)) = "gmail.com".data)
              || decide (pyStripL ((pyLowerL (pyStripL e.data)).drop
                (((pyLowerL (pyStripL e.data)).takeWhile
                  (fun c => ¬ (c = '@'))).length + 1)) = "googlemail.com".data))) = true) := by
          simp only [Bool.true_and, Bool.or_eq_true, decide_eq_true_eq]
          intro h
          rcases h with h | h
          · exact hg1 h
          · exact hg2 h
        have hcond2 : ¬((false
            && (decide (pyStripL ((pyLowerL (pyStripL e.data)).drop
                (((pyLowerL (pyStripL e.data)).takeWhile
                  (fun c => ¬ (c = '@'))).length + 1)) = "gmail.com".data)
              || decide (pyStripL ((pyLowerL (pyStripL e.data)).drop
                (((pyLowerL (pyStripL e.data)).takeWhile
                  (fun c => ¬ (c = '@'))).length + 1)) = "googlemail.com".data))) = true) := by
          simp
        rw [if_neg hcond1, if_neg hcond2]

/-- C4 (witness): `a+b@x.com` and `a@x.com` normalize identically with the
Gmail flag off, and an address-free string is only trimmed and lower-cased. -/
theorem C4_normalize_email_amended_witness :
    normalize_email ("a" ++ "+" ++ "b" ++ "@" ++ "x.com") false
        = normalize_email ("a" ++ "@" ++ "x.com") false
      ∧ normalize_email " NoAtSign " true
          = String.mk (pyLowerL (pyStripL " NoAtSign ".data)) :=
  ⟨C4_normalize_email_amended.2.1 "a" "b" "x.com" false (by decide) (by decide)
      (by decide) (by decide) (by decide) (by decide),
    C4_normalize_email_amended.1 " NoAtSign " true (by decide)⟩

theorem any_eq_false_of_filter_nil {α : Type} {p : α → Bool} {l : List α}
    (h : l.filter p = []) : l.any p = false := by
  cases hl : l.any p with
  | false => rfl
  | true =>
    obtain ⟨x, hx, hp⟩ := List.any_eq_true.mp hl
    have := List.mem_filter.mpr ⟨hx, hp⟩
    rw [h] at this
    simp at this

theorem any_eq_true_of_filter_cons {α : Type} {p : α → Bool} {l : List α}
    {x : α} {xs : List α} (h : l.filter p = x :: xs) : l.any p = true := by
  have hx : x ∈ l.filter p := by
    rw [h]
    exact List.mem_cons_self x xs
  exact List.any_eq_true.mpr ⟨x, (List.mem_filter.mp hx).1, (List.mem_filter.mp hx).2⟩

theorem any_id_of_byId_none {r10s : List KRecord} {c : String}
    (h : buildById r10s c = Option.none) :
    r10s.any (fun r => r.id == c) = false := by
  cases hl : r10s.any (fun r => r.id == c) with
  | false => rfl
  | true =>
    obtain ⟨r, hr, hp⟩ := List.any_eq_true.mp hl
    have : (buildById r10s c).isSome = true :=
      (buildById_isSome r10s c).mpr ⟨r, hr, by simpa using hp⟩
    rw [h] at this
    simp at this

theorem any_id_of_byId_some {r10s : List KRecord} {c : String} {r10 : KRecord}
    (h : buildById r10s c = some r10) :
    r10s.any (fun r => r.id == c) = true := by
  have hs : (buildById r10s c).isSome = true := by simp [h]
  obtain ⟨r, hr, hid⟩ := (buildById_isSome r10s c).mp hs
  exact List.any_eq_true.mpr ⟨r, hr, by simpa using hid⟩

/-- The `chain_status` flags coincide with the declarative hop predicates. -/
theorem chainStatus_fields (r6s r10s r29s : List KRecord) (rec3 : KRecord) :
    (chainStatusFull r6s r10s r29s rec3).has_obj6 = hop1Ok r6s rec3
      ∧ (chainStatusFull r6s r10s r29s rec3).has_obj10 = hop2Ok r6s r10s rec3
      ∧ (chainStatusFull r6s r10s r29s rec3).has_obj29 = hop3Ok r6s r10s r29s rec3 := by
  unfold chainStatusFull chainStatusOf hop1Ok hop2Ok hop3Ok hop2Conn obj6Match
  by_cases he : extract_email_value rec3 "field_70" = ""
  · have hbe : (extract_email_value rec3 "field_70" == "") = true := by simp [he]
    simp [hbe]
  · have hbe : (extract_email_value rec3 "field_70" == "") = false := by simp [he]
    have hlk := lookupV_buildByEmail r6s "field_91" (extract_email_value rec3 "field_70") he
    cases hf : r6s.filter
        (fun r6 => extract_email_value r6 "field_91" == extract_email_value rec3 "field_70") with
    | nil => simp [hbe, hlk, hf]
    | cons r6 rest =>
      by_cases hc : extract_connection_id r6 "field_182" = ""
      · have hbc : (extract_connection_id r6 "field_182" == "") = true := by simp [hc]
        simp [hbe, hlk, hf, hbc]
      · have hbc : (extract_connection_id r6 "field_182" == "") = false := by simp [hc]
        cases h10 : buildById r10s (extract_connection_id r6 "field_182") with
        | none =>
          have hany := any_id_of_byId_none h10
          simp [hbe, hlk, hf, hbc, h10, hany]
        | some r10 =>
          have hany := any_id_of_byId_some h10
          cases h29 : r29s.filter
              (fun r => extract_connection_id r "field_792"
                == extract_connection_id r6 "field_182") with
          | nil =>
            have hany29 := any_eq_false_of_filter_nil h29
            simp [hbe, hlk, hf, hbc, h10, hany, h29, hany29]
          | cons r29 rest29 =>
            have hany29 := any_eq_true_of_filter_cons h29
            simp [hbe, hlk, hf, hbc, h10, hany, h29, hany29]

theorem hop2Ok_imp_hop1 (r6s r10s : List KRecord) (rec3 : KRecord)
    (h : hop2Ok r6s r10s rec3 = true) : hop1Ok r6s rec3 = true := by
  unfold hop2Ok hop2Conn at h
  unfold hop1Ok
  cases hm : obj6Match r6s rec3 with
  | none => rw [hm] at h; simp at h
  | some r6 => simp [hm]

theorem hop3Ok_imp_hop2 (r6s r10s r29s : List KRecord) (rec3 : KRecord)
    (h : hop3Ok r6s r10s r29s rec3 = true) : hop2Ok r6s r10s rec3 = true := by
  unfold hop3Ok at h
  unfold hop2Ok
  cases hm : hop2Conn r6s rec3 with
  | none => rw [hm] at h; simp at h
  | some c =>
    rw [hm] at h
    simp only [Bool.and_eq_true] at h
    exact h.1

theorem hop1Ok_email_ne (r6s : List KRecord) (rec3 : KRecord)
    (h : hop1Ok r6s rec3 = true) :
    (extract_email_value rec3 "field_70" == "") = false := by
  unfold hop1Ok obj6Match at h
  by_cases he : (extract_email_value rec3 "field_70" == "") = true
  · rw [if_pos he] at h
    simp at h
  · simpa using he

theorem email_empty_not_hop1 (r6s : List KRecord) (rec3 : KRecord)
    (h : (extract_email_value rec3 "field_70" == "") = true) :
    hop1Ok r6s rec3 = false := by
  unfold hop1Ok obj6Match
  rw [if_pos h]
  rfl

/-- The four buckets accumulated by the classification fold, characterized by
the hop predicates. -/
theorem classify_fold_spec (r6s r10s r29s : List KRecord)
    (students : List KRecord) (b : Buckets) :
    (students.foldl (classifyStep (fun e => lookupV (buildByEmail r6s "field_91") e)
        (buildById r10s) r29s) b).complete_chain
        = b.complete_chain
          ++ (students.filter (fun r => hop3Ok r6s r10s r29s r)).map
              (chainStatusFull r6s r10s r29s)
      ∧ (students.foldl (classifyStep (fun e => lookupV (buildByEmail r6s "field_91") e)
          (buildById r10s) r29s) b).obj3_missing_obj6
          = b.obj3_missing_obj6
            ++ (students.filter (fun r => !hop1Ok r6s r)).map
                (chainStatusFull r6s r10s r29s)
      ∧ (students.foldl (classifyStep (fun e => lookupV (buildByEmail r6s "field_91") e)
          (buildById r10s) r29s) b).obj6_missing_obj10
          = b.obj6_missing_obj10
            ++ (students.filter (fun r => hop1Ok r6s r && !hop2Ok r6s r10s r)).map
                (chainStatusFull r6s r10s r29s)
      ∧ (students.foldl (classifyStep (fun e => lookupV (buildByEmail r6s "field_91") e)
          (buildById r10s) r29s) b).obj10_missing_obj29
          = b.obj10_missing_obj29
            ++ (students.filter (fun r => hop2Ok r6s r10s r && !hop3Ok r6s r10s r29s r)).map
                (chainStatusFull r6s r10s r29s) := by
  induction students generalizing b with
  | nil => simp
  | cons r rs ih =>
    simp only [List.foldl_cons]
    obtain ⟨hf6, hf10, hf29⟩ := chainStatus_fields r6s r10s r29s r
    have hstep : ∀ b' : Buckets,
        classifyStep (fun e => lookupV (buildByEmail r6s "field_91") e)
          (buildById r10s) r29s b' r =
        (if hop3Ok r6s r10s r29s r then
          { b' with complete_chain := b'.complete_chain ++ [chainStatusFull r6s r10s r29s r] }
        else if !hop1Ok r6s r then
          { b' with obj3_missing_obj6 :=
              b'.obj3_missing_obj6 ++ [chainStatusFull r6s r10s r29s r] }
        else if !hop2Ok r6s r10s r then
          { b' with obj6_missing_obj10 :=
              b'.obj6_missing_obj10 ++ [chainStatusFull r6s r10s r29s r] }
        else
          { b' with obj10_missing_obj29 :=
              b'.obj10_missing_obj29 ++ [chainStatusFull r6s r10s r29s r] }) := by
      intro b'
      unfold classifyStep
      by_cases he : (extract_email_value r "field_70" == "") = true
      · have h1 := email_empty_not_hop1 r6s r he
        have h3 : hop3Ok r6s r10s r29s r = false := by
          cases hh : hop3Ok r6s r10s r29s r with
          | false => rfl
          | true =>
            have := hop2Ok_imp_hop1 r6s r10s r (hop3Ok_imp_hop2 r6s r10s r29s r hh)
            rw [h1] at this
            exact this.symm
        rw [if_pos he, h3, if_neg (by simp), h1]
        simp [chainStatusFull]
      · rw [if_neg he]
        rw [show (chainStatusOf (fun e => lookupV (buildByEmail r6s "field_91") e)
            (buildById r10s) r29s r) = chainStatusFull r6s r10s r29s r from rfl]
        rw [hf6, hf10, hf29]
        by_cases h3 : hop3Ok r6s r10s r29s r = true
        · have h2 := hop3Ok_imp_hop2 r6s r10s r29s r h3
          have h1 := hop2Ok_imp_hop1 r6s r10s r h2
          rw [h1, h2, h3]
          simp
        · have h3f : hop3Ok r6s r10s r29s r = false := by
            cases hh : hop3Ok r6s r10s r29s r with
            | false => rfl
            | true => exact absurd hh h3
          rw [h3f]
          by_cases h1 : hop1Ok r6s r = true
          · rw [h1]
            by_cases h2 : hop2Ok r6s r10s r = true
            · rw [h2]
              simp
            · have h2f : hop2Ok r6s r10s r = false := by
                cases hh : hop2Ok r6s r10s r with
                | false => rfl
                | true => exact absurd hh h2
              rw [h2f]
              simp
          · have h1f : hop1Ok r6s r = false := by
              cases hh : hop1Ok r6s r with
              | false => rfl
              | true => exact absurd hh h1
            have h2f : hop2Ok r6s r10s r = false := by
              cases hh : hop2Ok r6s r10s r with
              | false => rfl
              | true => exact absurd (hop2Ok_imp_hop1 r6s r10s r hh) (by simp [h1f])
            rw [h1f, h2f]
            simp
    rw [hstep b]
    by_cases h3 : hop3Ok r6s r10s r29s r = true
    · have h2 := hop3Ok_imp_hop2 r6s r10s r29s r h3
      have h1 := hop2Ok_imp_hop1 r6s r10s r h2
      rw [if_pos (by simp [h3])]
      obtain ⟨c1, c2, c3, c4⟩ := ih
        { b with complete_chain := b.complete_chain ++ [chainStatusFull r6s r10s r29s r] }
      refine ⟨?_, ?_, ?_, ?_⟩
      · rw [c1]
        simp [List.filter_cons, h3, h1, h2]
      · rw [c2]
        simp [List.filter_cons, h1]
      · rw [c3]
        simp [List.filter_cons, h2]
      · rw [c4]
        simp [List.filter_cons, h3]
    · have h3f : hop3Ok r6s r10s r29s r = false := by
        cases hh : hop3Ok r6s r10s r29s r with
        | false => rfl
        | true => exact absurd hh h3
      rw [if_neg (by simp [h3f])]
      by_cases h1 : hop1Ok r6s r = true
      · rw [if_neg (by simp [h1])]
        by_cases h2 : hop2Ok r6s r10s r = true
        · rw [if_neg (by simp [h2])]
          obtain ⟨c1, c2, c3, c4⟩ := ih
            { b with obj10_missing_obj29 :=
                b.obj10_missing_obj29 ++ [chainStatusFull r6s r10s r29s r] }
          refine ⟨?_, ?_, ?_, ?_⟩
          · rw [c1]
            simp [List.filter_cons, h3f]
          · rw [c2]
            simp [List.filter_cons, h1]
          · rw [c3]
            simp [List.filter_cons, h2]
          · rw [c4]
            simp [List.filter_cons, h2, h3f]
        · have h2f : hop2Ok r6s r10s r = false := by
            cases hh : hop2Ok r6s r10s r with
            | false => rfl
            | true => exact absurd hh h2
          rw [if_pos (by simp [h2f])]
          obtain ⟨c1, c2, c3, c4⟩ := ih
            { b with obj6_missing_obj10 :=
                b.obj6_missing_obj10 ++ [chainStatusFull r6s r10s r29s r] }
          refine ⟨?_, ?_, ?_, ?_⟩
          · rw [c1]
            simp [List.filter_cons, h3f]
          · rw [c2]
            simp [List.filter_cons, h1]
          · rw [c3]
            simp [List.filter_cons, h1, h2f]
          · rw [c4]
            simp [List.filter_cons, h2f]
      · have h1f : hop1Ok r6s r = false := by
          cases hh : hop1Ok r6s r with
          | false => rfl
          | true => exact absurd hh h1
        have h2f : hop2Ok r6s r10s r = false := by
          cases hh : hop2Ok r6s r10s r with
          | false => rfl
          | true => exact absurd (hop2Ok_imp_hop1 r6s r10s r hh) (by simp [h1f])
        rw [if_pos (by simp [h1f])]
        obtain ⟨c1, c2, c3, c4⟩ := ih
          { b with obj3_missing_obj6 :=
              b.obj3_missing_obj6 ++ [chainStatusFull r6s r10s r29s r] }
        refine ⟨?_, ?_, ?_, ?_⟩
        · rw [c1]
          simp [List.filter_cons, h3f]
        · rw [c2]
          simp [List.filter_cons, h1f]
        · rw [c3]
          simp [List.filter_cons, h1f]
        · rw [c4]
          simp [List.filter_cons, h2f]

/-- C3 (amended): every Object_3 student is assigned to exactly one of the
four buckets, determined by the first hop of the
Object_3 → Object_6 → Object_10 → Object_29 chain that fails to resolve: the
buckets are exactly the students filtered by "all hops ok", "hop 1 broken",
"hop 1 ok, hop 2 broken" and "hops 1–2 ok, hop 3 broken"; in particular a
chain with hops {ok, ok, broken} lands in `obj10_missing_obj29` — the third
hop's failure category — and in no other bucket. -/
theorem C3_first_failing_hop (r3s r6s r10s r29s : List KRecord) :
    (consolidate_students r3s r6s r10s r29s).complete_chain
        = ((r3s.filter (fun r => check_student_role r "field_73")).filter
            (fun r => hop3Ok r6s r10s r29s r)).map (chainStatusFull r6s r10s r29s)
      ∧ (consolidate_students r3s r6s r10s r29s).obj3_missing_obj6
          = ((r3s.filter (fun r => check_student_role r "field_73")).filter
              (fun r => !hop1Ok r6s r)).map (chainStatusFull r6s r10s r29s)
      ∧ (consolidate_students r3s r6s r10s r29s).obj6_missing_obj10
          = ((r3s.filter (fun r => check_student_role r "field_73")).filter
              (fun r => hop1Ok r6s r && !hop2Ok r6s r10s r)).map
              (chainStatusFull r6s r10s r29s)
      ∧ (consolidate_students r3s r6s r10s r29s).obj10_missing_obj29
          = ((r3s.filter (fun r => check_student_role r "field_73")).filter
              (fun r => hop2Ok r6s r10s r && !hop3Ok r6s r10s r29s r)).map
              (chainStatusFull r6s r10s r29s)
      ∧ ∀ r ∈ r3s.filter (fun r => check_student_role r "field_73"),
          hop2Ok r6s r10s r = true → hop3Ok r6s r10s r29s r = false →
            (chainStatusFull r6s r10s r29s r
                ∈ (consolidate_students r3s r6s r10s r29s).obj10_missing_obj29
              ∧ ¬(chainStatusFull r6s r10s r29s r
                  ∈ (consolidate_students r3s r6s r10s r29s).obj6_missing_obj10)
              ∧ ¬(chainStatusFull r6s r10s r29s r
                  ∈ (consolidate_students r3s r6s r10s r29s).obj3_missing_obj6)
              ∧ ¬(chainStatusFull r6s r10s r29s r
                  ∈ (consolidate_students r3s r6s r10s r29s).complete_chain)) := by
  have hdef : consolidate_students r3s r6s r10s r29s
      = (r3s.filter (fun r => check_student_role r "field_73")).foldl
          (classifyStep (fun e => lookupV (buildByEmail r6s "field_91") e)
            (buildById r10s) r29s) {} := rfl
  obtain ⟨c1, c2, c3, c4⟩ := classify_fold_spec r6s r10s r29s
    (r3s.filter (fun r => check_student_role r "field_73")) {}
  rw [hdef]
  refine ⟨by simpa using c1, by simpa using c2, by simpa using c3, by simpa using c4, ?_⟩
  intro r hr h2 h3
  obtain ⟨hb6, hb10, hb29⟩ := chainStatus_fields r6s r10s r29s r
  have h1 := hop2Ok_imp_hop1 r6s r10s r h2
  refine ⟨?_, ?_, ?_, ?_⟩
  · rw [show ((r3s.filter (fun r => check_student_role r "field_73")).foldl
        (classifyStep (fun e => lookupV (buildByEmail r6s "field_91") e)
          (buildById r10s) r29s) {}).obj10_missing_obj29
        = _ from c4]
    simp only [Buckets.obj10_missing_obj29, List.nil_append]
    exact List.mem_map_of_mem _ (List.mem_filter.mpr ⟨hr, by simp [h2, h3]⟩)
  · intro hmem
    rw [show ((r3s.filter (fun r => check_student_role r "field_73")).foldl
        (classifyStep (fun e => lookupV (buildByEmail r6s "field_91") e)
          (buildById r10s) r29s) {}).obj6_missing_obj10 = _ from c3] at hmem
    simp only [List.nil_append] at hmem
    obtain ⟨r', hr', heq⟩ := List.mem_map.mp hmem
    obtain ⟨hb6', hb10', _⟩ := chainStatus_fields r6s r10s r29s r'
    have hpred := (List.mem_filter.mp hr').2
    simp only [Bool.and_eq_true, Bool.not_eq_true'] at hpred
    have : (chainStatusFull r6s r10s r29s r).has_obj10 = false := by
      rw [← heq, hb10', hpred.2]
    rw [hb10, h2] at this
    exact Bool.noConfusion this
  · intro hmem
    rw [show ((r3s.filter (fun r => check_student_role r "field_73")).foldl
        (classifyStep (fun e => lookupV (buildByEmail r6s "field_91") e)
          (buildById r10s) r29s) {}).obj3_missing_obj6 = _ from c2] at hmem
    simp only [List.nil_append] at hmem
    obtain ⟨r', hr', heq⟩ := List.mem_map.mp hmem
    obtain ⟨hb6', _, _⟩ := chainStatus_fields r6s r10s r29s r'
    have hpred := (List.mem_filter.mp hr').2
    simp only [Bool.not_eq_true'] at hpred
    have : (chainStatusFull r6s r10s r29s r).has_obj6 = false := by
      rw [← heq, hb6', hpred]
    rw [hb6, h1] at this
    exact Bool.noConfusion this
  · intro hmem
    rw [show ((r3s.filter (fun r => check_student_role r "field_73")).foldl
        (classifyStep (fun e => lookupV (buildByEmail r6s "field_91") e)
          (buildById r10s) r29s) {}).complete_chain = _ from c1] at hmem
    simp only [List.nil_append] at hmem
    obtain ⟨r', hr', heq⟩ := List.mem_map.mp hmem
    obtain ⟨_, _, hb29'⟩ := chainStatus_fields r6s r10s r29s r'
    have hpred := (List.mem_filter.mp hr').2
    have : (chainStatusFull r6s r10s r29s r).has_obj29 = true := by
      rw [← heq, hb29', hpred]
    rw [hb29, h3] at this
    exact Bool.noConfusion this

/-- C3 (witness): the concrete ok/ok/broken chain of student `s3` sits in
`obj10_missing_obj29` and in no other bucket. -/
theorem C3_first_failing_hop_witness :
    chainStatusFull [exS6] [exS10] [] exS3
        ∈ (consolidate_students [exS3] [exS6] [exS10] []).obj10_missing_obj29
      ∧ ¬(chainStatusFull [exS6] [exS10] [] exS3
          ∈ (consolidate_students [exS3] [exS6] [exS10] []).obj6_missing_obj10)
      ∧ ¬(chainStatusFull [exS6] [exS10] [] exS3
          ∈ (consolidate_students [exS3] [exS6] [exS10] []).obj3_missing_obj6)
      ∧ ¬(chainStatusFull [exS6] [exS10] [] exS3
          ∈ (consolidate_students [exS3] [exS6] [exS10] []).complete_chain) :=
  (C3_first_failing_hop [exS3] [exS6] [exS10] []).2.2.2.2 exS3
    (by
      rw [show List.filter (fun r => check_student_role r "field_73") [exS3]
          = [exS3] from rfl]
      exact List.Mem.head _)
    (by decide) (by decide)

/-- C10: an Object_3 record that passes the student filter but has a blank
extracted email is classified under `obj3_missing_obj6` without consulting
the other collections — its chain status is the same whatever Object_6,
Object_10 and Object_29 hold, even an Object_6 profile with the same name —
and it can never appear in `complete_chain`. -/
theorem C10_blank_email_student (r3s r6s r10s r29s r6s' r10s' r29s' : List KRecord)
    (rec : KRecord) (hmem : rec ∈ r3s)
    (hrole : check_student_role rec "field_73" = true)
    (hemail : extract_email_value rec "field_70" = "") :
    chainStatusFull r6s r10s r29s rec = chainStatusFull r6s' r10s' r29s' rec
      ∧ chainStatusFull r6s r10s r29s rec
          ∈ (consolidate_students r3s r6s r10s r29s).obj3_missing_obj6
      ∧ ∀ st ∈ (consolidate_students r3s r6s r10s r29s).complete_chain,
          ¬(st = chainStatusFull r6s r10s r29s rec) := by
  have hbe : (extract_email_value rec "field_70" == "") = true := by simp [hemail]
  have h1 : hop1Ok r6s rec = false := email_empty_not_hop1 r6s rec hbe
  obtain ⟨hb6, _, _⟩ := chainStatus_fields r6s r10s r29s rec
  obtain ⟨c1, c2, _, _⟩ := C3_first_failing_hop r3s r6s r10s r29s
  refine ⟨?_, ?_, ?_⟩
  · unfold chainStatusFull chainStatusOf
    rw [if_pos hbe, if_pos hbe]
  · rw [c2]
    exact List.mem_map_of_mem _
      (List.mem_filter.mpr ⟨List.mem_filter.mpr ⟨hmem, hrole⟩, by simp [h1]⟩)
  · intro st hst heq
    rw [c1] at hst
    obtain ⟨r', hr', heq'⟩ := List.mem_map.mp hst
    obtain ⟨hb6', _, _⟩ := chainStatus_fields r6s r10s r29s r'
    have hpred := (List.mem_filter.mp hr').2
    have h1' := hop2Ok_imp_hop1 r6s r10s r'
      (hop3Ok_imp_hop2 r6s r10s r29s r' hpred)
    have : (chainStatusFull r6s r10s r29s rec).has_obj6 = true := by
      rw [← heq, ← heq', hb6', h1']
    rw [hb6, h1] at this
    exact Bool.noConfusion this

/-- C10 (witness): the email-less student `s3b` files under
`obj3_missing_obj6` with the same status whether or not the same-name
Object_6 profile `s6b` is present. -/
theorem C10_blank_email_student_witness :
    chainStatusFull [exS6b] [] [] exS3b = chainStatusFull [] [] [] exS3b
      ∧ chainStatusFull [exS6b] [] [] exS3b
          ∈ (consolidate_students [exS3b] [exS6b] [] []).obj3_missing_obj6
      ∧ ∀ st ∈ (consolidate_students [exS3b] [exS6b] [] []).complete_chain,
          ¬(st = chainStatusFull [exS6b] [] [] exS3b) :=
  C10_blank_email_student [exS3b] [exS6b] [] [] [] [] [] exS3b (List.Mem.head _)
    (by decide) (by decide)

theorem mem_of_lookupL {β : Type} {gs : List (String × β)} {e : String} {b : β}
    (h : lookupL gs e = some b) : (e, b) ∈ gs := by
  unfold lookupL at h
  cases hf : gs.find? (fun p => p.1 == e) with
  | none => rw [hf] at h; simp at h
  | some p =>
    rw [hf] at h
    simp only [Option.map_some', Option.some.injEq] at h
    have hkey := List.find?_some hf
    have hmem : p ∈ gs := List.mem_of_find?_eq_some hf
    obtain ⟨pk, pb⟩ := p
    simp only at h
    simp only [beq_iff_eq] at hkey
    rw [← hkey, ← h]
    exact hmem

theorem dups_keys_nodup (records : List KRecord) (emailKey : String) (gm : Bool) :
    (((buildGroups records emailKey gm).filter
      (fun p => p.2.length > 1)).map Prod.fst).Nodup :=
  ((List.filter_sublist _).map Prod.fst).nodup
    (buildGroups_keys_nodup records emailKey gm)

/-- C5: `plan_deletions` groups records whose emails normalize identically
(each nonempty normalized email's duplicate group is exactly the records
normalizing to it), keeps — under the default `oldest` policy — a member of
the group with minimal parsed creation key, plans deletion of exactly the
group members whose id differs from the keeper's, and sorts unparseable
creation timestamps as the minimum possible value. -/
theorem C5_plan_deletions (records : List KRecord) (emailKey : String)
    (gm : Bool) (e : String) (he : ¬(e = ""))
    (hdup : 2 ≤ ((lookupL (plan_deletions records emailKey "oldest" gm).1 e).getD []).length) :
    ((lookupL (plan_deletions records emailKey "oldest" gm).1 e).getD []
        = records.filter (fun r => normEmailOf emailKey gm r == e))
      ∧ (∃ keeper,
          choose_record_to_keep
              ((lookupL (plan_deletions records emailKey "oldest" gm).1 e).getD [])
              "oldest" = some keeper
            ∧ keeper ∈ (lookupL (plan_deletions records emailKey "oldest" gm).1 e).getD []
            ∧ (∀ r ∈ (lookupL (plan_deletions records emailKey "oldest" gm).1 e).getD [],
                sortKey keeper ≤ sortKey r)
            ∧ (∀ d ∈ (plan_deletions records emailKey "oldest" gm).2.2,
                d.email_norm = e →
                  ∃ r ∈ (lookupL (plan_deletions records emailKey "oldest" gm).1 e).getD [],
                    ¬(r.id = keeper.id) ∧ d.delete_id = r.id ∧ d.keep_id = keeper.id)
            ∧ (∀ r ∈ (lookupL (plan_deletions records emailKey "oldest" gm).1 e).getD [],
                ¬(r.id = keeper.id) →
                  ∃ d ∈ (plan_deletions records emailKey "oldest" gm).2.2,
                    d.email_norm = e ∧ d.delete_id = r.id ∧ d.keep_id = keeper.id))
      ∧ (∀ r r' : KRecord, parse_dt r.createdAt = Option.none → sortKey r ≤ sortKey r') := by
  have hplan1 : (plan_deletions records emailKey "oldest" gm).1
      = (buildGroups records emailKey gm).filter (fun p => p.2.length > 1) := rfl
  have hdels : (plan_deletions records emailKey "oldest" gm).2.2
      = ((buildGroups records emailKey gm).filter (fun p => p.2.length > 1)).flatMap
          (fun p => groupDeletions emailKey "oldest" p.1 p.2) := by
    show ((buildGroups records emailKey gm).filter (fun p => p.2.length > 1)).foldl
        (fun acc p => acc ++ groupDeletions emailKey "oldest" p.1 p.2) [] = _
    rw [foldl_append_bind, List.nil_append]
  cases hl : lookupL ((buildGroups records emailKey gm).filter
      (fun p => p.2.length > 1)) e with
  | none =>
    rw [hplan1, hl] at hdup
    simp at hdup
  | some g0 =>
    have hg0 : (lookupL (plan_deletions records emailKey "oldest" gm).1 e).getD [] = g0 := by
      rw [hplan1, hl]
      rfl
    have hmemdup : (e, g0) ∈ (buildGroups records emailKey gm).filter
        (fun p => p.2.length > 1) := mem_of_lookupL hl
    have hmemgroups : (e, g0) ∈ buildGroups records emailKey gm :=
      List.mem_of_mem_filter hmemdup
    have hlen : 1 < g0.length := by
      have := (List.mem_filter.mp hmemdup).2
      simpa using this
    have hlookupG : lookupL (buildGroups records emailKey gm) e = some g0 :=
      lookupL_eq_of_mem _ (buildGroups_keys_nodup records emailKey gm) e g0 hmemgroups
    have hchar : g0 = records.filter (fun r => normEmailOf emailKey gm r == e) := by
      have h := lookupV_buildGroups records emailKey gm e he
      rw [hlookupG] at h
      simpa using h
    have hne0 : ¬(g0 = []) := by
      intro hc
      rw [hc] at hlen
      simp at hlen
    obtain ⟨keeper, hch, hkmem, hkmin⟩ := choose_oldest_spec g0 hne0
    refine ⟨by rw [hg0, hchar], ⟨keeper, ?_, ?_, ?_, ?_, ?_⟩,
      fun r r' h => sortKey_unparseable_min r r' h⟩
    · rw [hg0]
      exact hch
    · rw [hg0]
      exact hkmem
    · rw [hg0]
      exact hkmin
    · intro d hd hde
      rw [hdels] at hd
      obtain ⟨p, hp, hdp⟩ := List.mem_flatMap.mp hd
      obtain ⟨pk, pg⟩ := p
      unfold groupDeletions at hdp
      cases hcp : choose_record_to_keep pg "oldest" with
      | none => rw [hcp] at hdp; simp at hdp
      | some kp =>
        rw [hcp] at hdp
        obtain ⟨r, hrf, hdeq⟩ := List.mem_map.mp hdp
        have hek : pk = e := by
          rw [← hde, ← hdeq]
        subst hek
        have : lookupL ((buildGroups records emailKey gm).filter
            (fun p => p.2.length > 1)) pk = some pg :=
          lookupL_eq_of_mem _ (dups_keys_nodup records emailKey gm) pk pg hp
        rw [hl] at this
        have hpg : g0 = pg := by
          simpa using this
        subst hpg
        have hkp : kp = keeper := by
          rw [hch] at hcp
          simpa using hcp.symm
        subst hkp
        refine ⟨r, ?_, ?_, ?_, ?_⟩
        · rw [hg0]
          exact (List.mem_filter.mp hrf).1
        · have := (List.mem_filter.mp hrf).2
          simpa using this
        · rw [← hdeq]
        · rw [← hdeq]
    · intro r hr hne
      rw [hg0] at hr
      refine ⟨{ email_norm := e
                delete_id := r.id
                keep_id := keeper.id
                delete_created_at := r.createdAt
                keep_created_at := keeper.createdAt
                delete_raw_email := extract_email_value_d r emailKey
                keep_raw_email := extract_email_value_d keeper emailKey }, ?_, rfl, rfl, rfl⟩
      rw [hdels]
      refine List.mem_flatMap.mpr ⟨(e, g0), hmemdup, ?_⟩
      unfold groupDeletions
      rw [hch]
      exact List.mem_map_of_mem _ (List.mem_filter.mpr ⟨hr, by simpa using hne⟩)

/-- C5 (witness): on the spec's two-record example — id 1 with `a@x.com`
created 2020-01-01 and id 2 with `A@X.com ` created 2019-01-01 — both records
form one group, id 2 is kept and exactly id 1 is planned for deletion. -/
theorem C5_plan_deletions_witness :
    ((lookupL (plan_deletions [exD1, exD2] "field_70" "oldest" true).1 "a@x.com").getD []
        = [exD1, exD2].filter (fun r => normEmailOf "field_70" true r == "a@x.com"))
      ∧ ((plan_deletions [exD1, exD2] "field_70" "oldest" true).2.2).map
          DelEntry.delete_id = ["1"]
      ∧ ((plan_deletions [exD1, exD2] "field_70" "oldest" true).2.2).map
          DelEntry.keep_id = ["2"] :=
  ⟨(C5_plan_deletions [exD1, exD2] "field_70" true "a@x.com" (by decide) (by decide)).1,
    by decide, by decide⟩

theorem hasSub_eq_false_of_head_notin {l : List Char} {p : Char} {ps : List Char}
    (h : ∀ c ∈ l, ¬(c = p)) : hasSub l (p :: ps) = false := by
  induction l with
  | nil => rfl
  | cons c t ih =>
    have hc : (p == c) = false := by
      simp
      exact fun heq => h c (List.mem_cons_self c t) heq.symm
    simp only [hasSub, hasPfx, hc, Bool.false_and, Bool.false_or]
    exact ih (fun x hx => h x (List.mem_cons_of_mem c hx))

theorem hasPfx_append (pat r : List Char) : hasPfx pat (pat ++ r) = true := by
  induction pat with
  | nil => rfl
  | cons c t ih => simp [hasPfx, ih]

theorem hasSub_of_hasPfx {l pat : List Char} (hne : ¬(l = []))
    (h : hasPfx pat l = true) : hasSub l pat = true := by
  cases l with
  | nil => exact absurd rfl hne
  | cons c t => simp [hasSub, h]

theorem searchMailto_cons_ne {c : Char} (t : List Char) (h : ¬(c = 'm')) :
    searchMailto (c :: t) = searchMailto t := by
  have hpfx : hasPfx "mailto:".data (c :: t) = false := by
    show hasPfx ('m' :: "ailto:".data) (c :: t) = false
    have : ('m' == c) = false := by
      simp
      exact fun heq => h heq.symm
    simp [hasPfx, this]
  simp [searchMailto, mailtoAt, hpfx]

theorem quoteCapture_eq (A rest : List Char) (hne : ¬(A = []))
    (hq : ∀ c ∈ A, ¬(c = '"')) : quoteCapture (A ++ '"' :: rest) = some A := by
  have ht : (A ++ '"' :: rest).takeWhile (fun c => ¬ (c = '"')) = A :=
    takeWhile_append_of_all '"' rest (fun c hc => by simpa using hq c hc) (by simp)
  have hdr : (A ++ '"' :: rest).drop A.length = '"' :: rest := List.drop_left A _
  simp only [quoteCapture, ht, hdr]
  rw [if_neg (by simpa using hne)]
  simp

theorem searchMailto_capture (X cap : List Char) (h : quoteCapture X = some cap) :
    searchMailto ('m' :: 'a' :: 'i' :: 'l' :: 't' :: 'o' :: ':' :: X) = some cap := by
  have h1 : mailtoAt ('m' :: 'a' :: 'i' :: 'l' :: 't' :: 'o' :: ':' :: X) = some cap := by
    have hpfx : hasPfx "mailto:".data ('m' :: 'a' :: 'i' :: 'l' :: 't' :: 'o' :: ':' :: X)
        = true := rfl
    simp only [mailtoAt, hpfx, if_true]
    exact h
  simp [searchMailto, h1]

theorem searchMailto_mark (X cap : List Char) (h : quoteCapture X = some cap) :
    searchMailto (mailtoMark ++ X) = some cap := by
  show searchMailto ('<' :: 'a' :: ' ' :: 'h' :: 'r' :: 'e' :: 'f' :: '=' :: '"'
    :: 'm' :: 'a' :: 'i' :: 'l' :: 't' :: 'o' :: ':' :: X) = cap
  rw [searchMailto_cons_ne _ (by decide), searchMailto_cons_ne _ (by decide),
      searchMailto_cons_ne _ (by decide), searchMailto_cons_ne _ (by decide),
      searchMailto_cons_ne _ (by decide), searchMailto_cons_ne _ (by decide),
      searchMailto_cons_ne _ (by decide), searchMailto_cons_ne _ (by decide),
      searchMailto_cons_ne _ (by decide)]
  exact searchMailto_capture X cap h

theorem extract_email_value_str (s : String) :
    extract_email_value (mkRec (FVal.str s)) "f"
      = (if hasSub s.data mailtoMark then
          match searchMailto s.data with
          | some cap => pyLower (pyStrip (String.mk cap))
          | Option.none =>
            match searchAngled s.data with
            | some cap => pyLower (pyStrip (String.mk cap))
            | Option.none => pyLower (pyStrip s)
        else pyLower (pyStrip s)) := rfl

theorem extract_email_value_lstr (s : String) :
    extract_email_value (mkRec (FVal.list [FVal.str s])) "f"
      = (if hasSub s.data mailtoMark then
          match searchMailto s.data with
          | some cap => pyLower (pyStrip (String.mk cap))
          | Option.none => pyLower (pyStrip s)
        else pyLower (pyStrip s)) := rfl

/-- C6: for an underlying address `A` (nonempty, no `"` and no `<`
characters), `extract_email_value` returns the same trimmed lower-cased
address whether the field holds the plain string, a mailto-HTML anchor, a
mapping with an `email` key, a mapping with a `value` key, or a
single-element list of any of these; a missing or empty field yields the
empty string. -/
theorem C6_email_encodings (A : String) (hne : ¬(A.data = []))
    (hq : ∀ c ∈ A.data, ¬(c = '"')) (hlt : ∀ c ∈ A.data, ¬(c = '<')) :
    extract_email_value (mkRec (FVal.str A)) "f" = pyLower (pyStrip A)
      ∧ extract_email_value
          (mkRec (FVal.str ("<a href=\"mailto:" ++ A ++ "\">" ++ A ++ "</a>"))) "f"
          = pyLower (pyStrip A)
      ∧ extract_email_value (mkRec (FVal.dict [("email", A)])) "f" = pyLower (pyStrip A)
      ∧ extract_email_value (mkRec (FVal.dict [("value", A)])) "f" = pyLower (pyStrip A)
      ∧ extract_email_value (mkRec (FVal.list [FVal.str A])) "f" = pyLower (pyStrip A)
      ∧ extract_email_value
          (mkRec (FVal.list [FVal.str ("<a href=\"mailto:" ++ A ++ "\">" ++ A ++ "</a>")])) "f"
          = pyLower (pyStrip A)
      ∧ extract_email_value (mkRec (FVal.list [FVal.dict [("email", A)]])) "f"
          = pyLower (pyStrip A)
      ∧ extract_email_value (mkRec (FVal.list [FVal.dict [("value", A)]])) "f"
          = pyLower (pyStrip A)
      ∧ extract_email_value { id := "r", fields := [] } "f" = ""
      ∧ extract_email_value (mkRec (FVal.str "")) "f" = ""
      ∧ extract_email_value (mkRec (FVal.list [])) "f" = ""
      ∧ extract_email_value (mkRec (FVal.dict [])) "f" = "" := by
  have hAne : ¬(A = "") := by
    intro h
    rw [h] at hne
    exact hne rfl
  have hkv : kget (mkRec (FVal.str A)) "f" = FVal.str A := rfl
  have hsubA : hasSub A.data mailtoMark = false := by
    show hasSub A.data ('<' :: "a href=\"mailto:".data) = false
    exact hasSub_eq_false_of_head_notin hlt
  have hdata : ("<a href=\"mailto:" ++ A ++ "\">" ++ A ++ "</a>").data
      = mailtoMark ++ (A.data ++ '"' :: '>' :: (A.data ++ "</a>".data)) := by
    show ("<a href=\"mailto:" ++ A ++ "\">" ++ A ++ "</a>").data
      = "<a href=\"mailto:".data ++ (A.data ++ '"' :: '>' :: (A.data ++ "</a>".data))
    have h1 : ('"' : Char) :: '>' :: (A.data ++ "</a>".data)
        = "\">".data ++ A.data ++ "</a>".data := by
      show _ = '"' :: '>' :: [] ++ A.data ++ "</a>".data
      simp
    rw [h1]
    simp [String.data_append]
  have hanchor : searchMailto ("<a href=\"mailto:" ++ A ++ "\">" ++ A ++ "</a>").data
      = some A.data := by
    rw [hdata]
    refine searchMailto_mark _ _ ?_
    have := quoteCapture_eq A.data ('>' :: (A.data ++ "</a>".data)) hne hq
    simpa using this
  have hsubAnchor : hasSub ("<a href=\"mailto:" ++ A ++ "\">" ++ A ++ "</a>").data
      mailtoMark = true := by
    rw [hdata]
    refine hasSub_of_hasPfx ?_ (hasPfx_append _ _)
    intro hc
    have := congrArg List.length hc
    simp [mailtoMark] at this
  refine ⟨?_, ?_, ?_, ?_, ?_, ?_, ?_, ?_, by decide, by decide, by decide, by decide⟩
  · rw [extract_email_value_str, if_neg (by simp [hsubA])]
  · rw [extract_email_value_str, if_pos hsubAnchor, hanchor]
  · simp [extract_email_value, kget, mkRec, dGet, orEmpty, hAne]
  · simp [extract_email_value, kget, mkRec, dGet, orEmpty]
  · rw [extract_email_value_lstr, if_neg (by simp [hsubA])]
  · rw [extract_email_value_lstr, if_pos hsubAnchor, hanchor]
  · simp [extract_email_value, kget, mkRec, dGet, orEmpty, hAne]
  · simp [extract_email_value, kget, mkRec, dGet, orEmpty]

/-- C6 (witness): the address `User@Example.com ` (mixed case, trailing
space) extracts as `user@example.com` from all encodings. -/
theorem C6_email_encodings_witness :
    extract_email_value (mkRec (FVal.str "User@Example.com ")) "f"
        = pyLower (pyStrip "User@Example.com ")
      ∧ extract_email_value
          (mkRec (FVal.str ("<a href=\"mailto:" ++ "User@Example.com "
            ++ "\">" ++ "User@Example.com " ++ "</a>"))) "f"
          = pyLower (pyStrip "User@Example.com ")
      ∧ pyLower (pyStrip "User@Example.com ") = "user@example.com" :=
  ⟨(C6_email_encodings "User@Example.com " (by decide) (by decide) (by decide)).1,
    (C6_email_encodings "User@Example.com " (by decide) (by decide) (by decide)).2.1,
    by decide⟩
